import Mathlib

/-!
# Audio relay of `discord_bot.go`

A shallow embedding of `outputFramesFromEnv` and of the two loops of
`streamCombinedAudio` (the receive goroutine with its frame reconciliation
buffer, and the capture/encode/send loop), followed by the properties proved
about them.

Conventions of the embedding:

* a Go string is a list of characters, a PCM sample (`int16`) is an integer,
  an encoded packet (`[]byte`) is a list of naturals;
* everything a loop iteration observes from outside (the state of `stopChan`,
  the fields of `vc`, what a channel receive, the decoder, the encoder or a
  PortAudio call returns) is an input of that iteration;
* everything an iteration does to the outside is recorded, in program order,
  as a list of events;
* a loop that does not terminate has result `none`.
-/

namespace DiscordBot

/-- One 16-bit PCM sample. -/
abbrev Sample := Int

/-- An Opus packet: the bytes of `opusData[:n]` or of `p.Opus`. -/
abbrev Packet := List Nat

/-! ## `outputFramesFromEnv` (discord_bot.go, lines 65-76) -/

/-- Go `unicode.IsSpace`: the code points with the Unicode White_Space property. -/
def isSpace (c : Char) : Bool :=
  let n := c.toNat
  (9 ≤ n && n ≤ 13) || n == 32 || n == 0x85 || n == 0xA0 || n == 0x1680 ||
    (0x2000 ≤ n && n ≤ 0x200A) || n == 0x2028 || n == 0x2029 || n == 0x202F ||
    n == 0x205F || n == 0x3000

/-- Go `strings.TrimSpace`: leading and trailing white space removed. -/
def trimSpace (s : List Char) : List Char :=
  ((s.dropWhile isSpace).reverse.dropWhile isSpace).reverse

/-- Go `os.Getenv`: the value of the variable, the empty string when it is unset. -/
def getenv (env : Option (List Char)) : List Char :=
  match env with
  | none => []
  | some v => v

/-- Go `strconv.IntSize` on the 64-bit platforms the bot is built for. -/
def intSize : Nat := 64

/-- The digit loop of `strconv.ParseUint` in base 10: the value of a run of
decimal digits, `none` at the first character that is not a digit. -/
def digitsValue : List Char → Nat → Option Nat
  | [], acc => some acc
  | c :: cs, acc =>
    if 48 ≤ c.toNat ∧ c.toNat ≤ 57 then digitsValue cs (acc * 10 + (c.toNat - 48)) else none

/-- Go `strconv.Atoi`: one optional sign, then at least one decimal digit, the
value within the range of `int`. `none` stands for a non-nil `err` (a syntax
error or a range error). -/
def atoi (s : List Char) : Option Int :=
  let neg : Bool := s.head? == some '-'
  let body : List Char :=
    match s with
    | [] => []
    | c :: t => if c = '-' ∨ c = '+' then t else c :: t
  if body = [] then none
  else
    match digitsValue body 0 with
    | none => none
    | some un =>
      if neg then
        if un ≤ 2 ^ (intSize - 1) then some (-(un : Int)) else none
      else
        if un < 2 ^ (intSize - 1) then some (un : Int) else none

/-- The function `outputFramesFromEnv`; `env` is the state of the environment
variable `OUTPUT_FRAMES` (`none` when it is unset). -/
def outputFramesFromEnv (env : Option (List Char)) : Int :=
  let raw := trimSpace (getenv env)
  if raw = [] then 1920
  else
    match atoi raw with
    | none => 1920
    | some n => if n ≤ 0 then 1920 else n

/-! ## The receive goroutine of `streamCombinedAudio` (lines 251-298) -/

/-- What `opusDecoder.Decode(p.Opus, decodeBuf)` returns: an error, or the
decoded samples `decodeBuf[:n]`. -/
inductive DecodeResult where
  | err
  | ok (samples : List Sample)
deriving DecidableEq, Repr

/-- The fields of a non-nil `*discordgo.VoiceConnection` that the relay reads. -/
structure VoiceConn where
  /-- The flag `vc.Ready`. -/
  ready : Bool
  /-- Whether `vc.OpusRecv == nil`. -/
  opusRecvNil : Bool
deriving DecidableEq, Repr

/-- What one iteration of the receive loop observes. -/
structure RecvEnv where
  /-- Whether `stopChan` is readable at the `select`. -/
  stop : Bool
  /-- The connection `vc`; `none` is the nil pointer. -/
  vc : Option VoiceConn
  /-- What `<-vc.OpusRecv` yields: `none` for a closed channel (`ok == false`). -/
  recv : Option Packet
  /-- What the decoder returns for the received packet. -/
  decode : DecodeResult
  /-- Whether the k-th `speakerStream.Write()` of this iteration succeeds. -/
  writeOk : Nat → Bool

/-- What the receive goroutine does to the outside. -/
inductive RecvEvent where
  /-- The `stopChan` case of the `select` was taken. -/
  | stopSeen
  /-- The branch `vc == nil` was taken. -/
  | vcNil
  /-- The flag `vc.Ready` was read, with this value. -/
  | readReady (b : Bool)
  /-- The call `time.Sleep` with this many milliseconds. -/
  | sleep (ms : Nat)
  /-- The receive `<-vc.OpusRecv` was performed; `none` when it found the channel closed. -/
  | chanRecv (p : Option Packet)
  /-- The call `opusDecoder.Decode` on this packet, with its result. -/
  | decode (p : Packet) (r : DecodeResult)
  /-- One pass of the drain loop: `block` was copied into `out`; `written` is
  `none` when `speakerStream` is nil (no write), else whether
  `speakerStream.Write()` succeeded. -/
  | play (block : List Sample) (written : Option Bool)
deriving DecidableEq, Repr

/-- How an iteration ends: `continue` (next iteration) or `return`. -/
inductive Ctl where
  | next
  | ret
deriving DecidableEq, Repr

/-- The drain loop, lines 286-295: `for len(pending) >= outputFrames`. The
buffer `out` has length `F = outputFrames`, so `copy(out, pending[:F])` fills
it with `pending.take F`. `speaker` says that `speakerStream != nil`; `k`
counts the writes of the iteration so far. The loop runs on fuel: `none` is
returned when the fuel is used up before the loop condition fails. -/
def drainLoop (F : Nat) (speaker : Bool) (writeOk : Nat → Bool) :
    Nat → Nat → List Sample → Option (List RecvEvent × List Sample)
  | 0, _, _ => none
  | fuel + 1, k, pending =>
    if F ≤ pending.length then
      match drainLoop F speaker writeOk fuel (k + 1) (pending.drop F) with
      | none => none
      | some (evs, rest) =>
        some (RecvEvent.play (pending.take F) (if speaker then some (writeOk k) else none) :: evs,
          rest)
    else some ([], pending)

/-- The drain loop run to its end: with `len(pending) + 1` units of fuel it
ends whenever `F > 0`, and for `F = 0`, where the Go loop never ends, the
result is `none`. -/
def drain (F : Nat) (speaker : Bool) (writeOk : Nat → Bool) (pending : List Sample) :
    Option (List RecvEvent × List Sample) :=
  drainLoop F speaker writeOk (pending.length + 1) 0 pending

/-- The result of one iteration of the receive loop. -/
structure RecvOut where
  /-- The events of the iteration, in program order. -/
  events : List RecvEvent
  /-- The buffer `pending` at the end of the iteration. -/
  pending : List Sample
  /-- Whether the loop goes on or the goroutine returns. -/
  ctl : Ctl
deriving DecidableEq, Repr

/-- One iteration of the receive loop, lines 255-297. -/
def recvIter (F : Nat) (speaker : Bool) (pending : List Sample) (e : RecvEnv) : Option RecvOut :=
  if e.stop then some ⟨[RecvEvent.stopSeen], pending, Ctl.ret⟩
  else
    match e.vc with
    | none => some ⟨[RecvEvent.vcNil], pending, Ctl.ret⟩
    | some vc =>
      if !vc.ready then
        some ⟨[RecvEvent.readReady false, RecvEvent.sleep 200], pending, Ctl.next⟩
      else if vc.opusRecvNil then
        some ⟨[RecvEvent.readReady true, RecvEvent.sleep 200], pending, Ctl.next⟩
      else
        match e.recv with
        | none => some ⟨[RecvEvent.readReady true, RecvEvent.chanRecv none], pending, Ctl.ret⟩
        | some p =>
          match e.decode with
          | DecodeResult.err =>
            some ⟨[RecvEvent.readReady true, RecvEvent.chanRecv (some p),
              RecvEvent.decode p DecodeResult.err], pending, Ctl.next⟩
          | DecodeResult.ok samples =>
            match drain F speaker e.writeOk (pending ++ samples) with
            | none => none
            | some (evs, rest) =>
              some ⟨[RecvEvent.readReady true, RecvEvent.chanRecv (some p),
                RecvEvent.decode p (DecodeResult.ok samples)] ++ evs, rest, Ctl.next⟩

/-- The receive loop over the observations of its successive iterations,
started with the buffer `pending`. It stops at the first iteration that
returns; `ctl` is `Ctl.next` when the loop is still running after the last
observation. -/
def recvLoop (F : Nat) (speaker : Bool) : List Sample → List RecvEnv → Option RecvOut
  | pending, [] => some ⟨[], pending, Ctl.next⟩
  | pending, e :: es =>
    match recvIter F speaker pending e with
    | none => none
    | some o =>
      match o.ctl with
      | Ctl.ret => some o
      | Ctl.next =>
        match recvLoop F speaker o.pending es with
        | none => none
        | some o2 => some ⟨o.events ++ o2.events, o2.pending, o2.ctl⟩

/-- The goroutine from its start: `pending := make([]int16, 0, outputFrames*2)`. -/
def recvGoroutine (F : Nat) (speaker : Bool) (es : List RecvEnv) : Option RecvOut :=
  recvLoop F speaker [] es

/-- The blocks copied into `out`, in order. -/
def copied : List RecvEvent → List (List Sample)
  | [] => []
  | RecvEvent.play b _ :: evs => b :: copied evs
  | _ :: evs => copied evs

/-- The blocks copied into `out` and passed to `speakerStream.Write()`, in order. -/
def written : List RecvEvent → List (List Sample)
  | [] => []
  | RecvEvent.play b (some _) :: evs => b :: written evs
  | _ :: evs => written evs

/-- Whether an event is a receive from the inbound channel. -/
def isChanRecv : RecvEvent → Bool
  | RecvEvent.chanRecv _ => true
  | _ => false

/-- The observation of an iteration that passes the gates, receives the packet
`p` and decodes it into `block`; `w` is the outcome of its playback writes. -/
def pushEnv (p : Packet) (block : List Sample) (w : Nat → Bool) : RecvEnv :=
  ⟨false, some ⟨true, false⟩, some p, DecodeResult.ok block, w⟩

/-- Two decoded blocks of 960 samples, `A` all ones and `B` all twos, each
with its packet; the playback write succeeds after `A` and fails after `B`. -/
def twoBlocks : List (Packet × List Sample × (Nat → Bool)) :=
  [([1], List.replicate 960 1, fun _ => true), ([2], List.replicate 960 2, fun _ => false)]

/-! ## The send loop of `streamCombinedAudio` (lines 311-335) -/

/-- What one iteration of the send loop observes. -/
structure SendEnv where
  /-- Whether `stopChan` is readable at the `select`. -/
  stop : Bool
  /-- Whether `micStream.Read()` returns a nil error. -/
  readOk : Bool
  /-- The contents of the capture buffer `in` after `micStream.Read()`. -/
  mic : List Sample
  /-- What `opusEncoder.Encode(in, opusData)` returns when it is called:
  `none` for an error, else the packet `opusData[:n]`. -/
  enc : Option Packet
  /-- The flag `vc.Ready` when the iteration reads it. -/
  ready : Bool
deriving DecidableEq, Repr

/-- What the send loop does to the outside. -/
inductive SendEvent where
  /-- The `stopChan` case of the `select` was taken. -/
  | stopSeen
  /-- The call `micStream.Stop()`. -/
  | micStop
  /-- The call `speakerStream.Stop()`. -/
  | speakerStop
  /-- The call `micStream.Read()`, and whether it succeeded. -/
  | micRead (ok : Bool)
  /-- The call `opusEncoder.Encode` on this frame, with its result. -/
  | encode (frame : List Sample) (r : Option Packet)
  /-- The flag `vc.Ready` was read, with this value. -/
  | readReady (b : Bool)
  /-- The send `vc.OpusSend <- p`. -/
  | opusSend (p : Packet)
deriving DecidableEq, Repr

/-- One iteration of the send loop, lines 312-334. The buffer `opusData` is
allocated afresh in each iteration, so a packet that was sent is not changed
by a later iteration. -/
def sendIter (e : SendEnv) : List SendEvent × Ctl :=
  if e.stop then ([SendEvent.stopSeen, SendEvent.micStop, SendEvent.speakerStop], Ctl.ret)
  else if !e.readOk then ([SendEvent.micRead false], Ctl.next)
  else
    match e.enc with
    | none => ([SendEvent.micRead true, SendEvent.encode e.mic none], Ctl.next)
    | some p =>
      if e.ready then
        ([SendEvent.micRead true, SendEvent.encode e.mic (some p), SendEvent.readReady true,
          SendEvent.opusSend p], Ctl.next)
      else
        ([SendEvent.micRead true, SendEvent.encode e.mic (some p), SendEvent.readReady false],
          Ctl.next)

/-- The send loop over the observations of its successive iterations. It
stops at the first iteration that returns; the control is `Ctl.next` when the
loop is still running after the last observation. -/
def sendLoop : List SendEnv → List SendEvent × Ctl
  | [] => ([], Ctl.next)
  | e :: es =>
    match sendIter e with
    | (evs, Ctl.ret) => (evs, Ctl.ret)
    | (evs, Ctl.next) => (evs ++ (sendLoop es).1, (sendLoop es).2)

/-- The packets sent on `vc.OpusSend`, in order. -/
def sent : List SendEvent → List Packet
  | [] => []
  | SendEvent.opusSend p :: evs => p :: sent evs
  | _ :: evs => sent evs

/-- Whether an event is a call of the encoder. -/
def isEncode : SendEvent → Bool
  | SendEvent.encode _ _ => true
  | _ => false

/-- Whether an event is a send on the outbound channel. -/
def isOpusSend : SendEvent → Bool
  | SendEvent.opusSend _ => true
  | _ => false

/-! ## Setup and teardown of `streamCombinedAudio` (lines 213-309) -/

/-- The outcome of each setup step: `true` when it returns a nil error. -/
structure SetupEnv where
  /-- The call `portaudio.OpenDefaultStream(1, 0, ...)`, the capture port. -/
  openMic : Bool
  /-- The call `portaudio.OpenDefaultStream(0, 1, ...)`, the playback port. -/
  openSpeaker : Bool
  /-- The call `opus.NewEncoder`. -/
  newEncoder : Bool
  /-- The call `opus.NewDecoder`. -/
  newDecoder : Bool
  /-- The call `micStream.Start()`. -/
  startMic : Bool
  /-- The call `speakerStream.Start()`. -/
  startSpeaker : Bool
deriving DecidableEq, Repr

/-- Whether at least one setup step fails. -/
def SetupEnv.anyFailure (s : SetupEnv) : Bool :=
  !(s.openMic && s.openSpeaker && s.newEncoder && s.newDecoder && s.startMic && s.startSpeaker)

/-- What the body of `streamCombinedAudio` does outside its two loops. -/
inductive SetupEvent where
  /-- The call `vc.Speaking(b)`. -/
  | speaking (b : Bool)
  /-- The call `portaudio.Initialize()`. -/
  | paInitialize
  /-- The deferred call `portaudio.Terminate()`. -/
  | paTerminate
  /-- Opening the capture port. -/
  | openMic
  /-- The deferred call `micStream.Close()`. -/
  | closeMic
  /-- Opening the playback port. -/
  | openSpeaker
  /-- The deferred call `speakerStream.Close()`. -/
  | closeSpeaker
  /-- Creating the encoder. -/
  | newEncoder
  /-- Creating the decoder. -/
  | newDecoder
  /-- The statement `go func()` of line 251: the receive goroutine is spawned. -/
  | spawnRecv
  /-- Starting the capture port. -/
  | startMic
  /-- Starting the playback port. -/
  | startSpeaker
  /-- The send loop of line 311 is entered. -/
  | enterSendLoop
deriving DecidableEq, Repr

/-- The deferred calls, run in reverse order of registration when the function returns. -/
def deferred (micOpen speakerOpen : Bool) : List SetupEvent :=
  (if speakerOpen then [SetupEvent.closeSpeaker] else []) ++
    (if micOpen then [SetupEvent.closeMic] else []) ++
    [SetupEvent.paTerminate, SetupEvent.speaking false]

/-- Lines 213-310: the events up to the send loop, or up to the return when a
step fails (the deferred calls included). -/
def setup (s : SetupEnv) : List SetupEvent :=
  [SetupEvent.speaking true, SetupEvent.paInitialize, SetupEvent.openMic] ++
  if !s.openMic then deferred false false
  else [SetupEvent.openSpeaker] ++
  if !s.openSpeaker then deferred true false
  else [SetupEvent.newEncoder] ++
  if !s.newEncoder then deferred true true
  else [SetupEvent.newDecoder] ++
  if !s.newDecoder then deferred true true
  else [SetupEvent.spawnRecv, SetupEvent.startMic] ++
  if !s.startMic then deferred true true
  else [SetupEvent.startSpeaker] ++
  if !s.startSpeaker then deferred true true
  else [SetupEvent.enterSendLoop]

/-! ## The relay as a whole: the function and its goroutine -/

/-- The control state of one run of `streamCombinedAudio`. -/
structure Relay where
  /-- The receive goroutine has been spawned and has not returned. -/
  recvRunning : Bool
  /-- The buffer `pending` of the receive goroutine. -/
  pending : List Sample
  /-- The function is in its send loop: it has not returned. -/
  sendRunning : Bool
deriving DecidableEq, Repr

/-- An event of the relay, tagged with the thread it belongs to. -/
inductive RelayEvent where
  /-- An event of the function body outside the loops. -/
  | main (ev : SetupEvent)
  /-- An event of the receive goroutine. -/
  | recv (ev : RecvEvent)
  /-- An event of the send loop. -/
  | send (ev : SendEvent)
deriving DecidableEq, Repr

/-- One scheduling step: the next iteration of one of the two loops, with what it observes. -/
inductive Step where
  | recv (e : RecvEnv)
  | send (e : SendEnv)

/-- The state after lines 213-310. -/
def relayStart (s : SetupEnv) : Relay × List RelayEvent :=
  (⟨decide (SetupEvent.spawnRecv ∈ setup s), [], decide (SetupEvent.enterSendLoop ∈ setup s)⟩,
    (setup s).map RelayEvent.main)

/-- One scheduling step of the relay. A step of a loop that has ended does
nothing. When the send loop returns, the deferred calls run. -/
def relayStep (F : Nat) (speaker : Bool) (r : Relay) : Step → Option (Relay × List RelayEvent)
  | Step.recv e =>
    if r.recvRunning then
      match recvIter F speaker r.pending e with
      | none => none
      | some o => some (⟨decide (o.ctl = Ctl.next), o.pending, r.sendRunning⟩,
          o.events.map RelayEvent.recv)
    else some (r, [])
  | Step.send e =>
    if r.sendRunning then
      match sendIter e with
      | (evs, Ctl.next) => some (r, evs.map RelayEvent.send)
      | (evs, Ctl.ret) => some (⟨r.recvRunning, r.pending, false⟩,
          evs.map RelayEvent.send ++ (deferred true true).map RelayEvent.main)
    else some (r, [])

/-- A run of the relay under a schedule. -/
def relayRun (F : Nat) (speaker : Bool) : Relay → List Step → Option (Relay × List RelayEvent)
  | r, [] => some (r, [])
  | r, st :: sts =>
    match relayStep F speaker r st with
    | none => none
    | some (r1, evs1) =>
      match relayRun F speaker r1 sts with
      | none => none
      | some (r2, evs2) => some (r2, evs1 ++ evs2)

/-- The function `streamCombinedAudio`: setup, then the two loops under a
schedule. The block size is read from the environment, and `speakerStream`
is not nil once it has been opened. -/
def streamCombinedAudio (env : Option (List Char)) (s : SetupEnv) (sched : List Step) :
    Option (Relay × List RelayEvent) :=
  match relayRun (outputFramesFromEnv env).toNat true (relayStart s).1 sched with
  | none => none
  | some (r, evs) => some (r, (relayStart s).2 ++ evs)

/-- Every setup step succeeds. -/
def setupOk : SetupEnv := ⟨true, true, true, true, true, true⟩

/-- Every setup step succeeds but the start of the capture port. -/
def setupStartMicFails : SetupEnv := ⟨true, true, true, true, false, true⟩

/-- A receive iteration that passes the gates and finds the inbound channel closed. -/
def recvClosedEnv : RecvEnv :=
  ⟨false, some ⟨true, false⟩, none, DecodeResult.err, fun _ => true⟩

/-- A send iteration with no stop signal, a captured frame of 960 samples, an
encoded packet and a ready session. -/
def sendReadyEnv : SendEnv := ⟨false, true, List.replicate 960 0, some [7], true⟩

/-- Four send iterations with the packets 1 to 4: the session is not ready in
the first three and ready in the fourth. -/
def notReadyThenReady : List SendEnv :=
  [⟨false, true, [], some [1], false⟩, ⟨false, true, [], some [2], false⟩,
    ⟨false, true, [], some [3], false⟩, ⟨false, true, [], some [4], true⟩]

/-- Whether an event is one of the receive goroutine. -/
def RelayEvent.isRecv : RelayEvent → Bool
  | RelayEvent.recv _ => true
  | _ => false

/-- Whether an event reads the readiness flag `vc.Ready`. -/
def RelayEvent.readsReady : RelayEvent → Bool
  | RelayEvent.recv (RecvEvent.readReady _) => true
  | RelayEvent.send (SendEvent.readReady _) => true
  | _ => false

/-- Whether an event sends on the outbound channel `vc.OpusSend`. -/
def RelayEvent.sendsPacket : RelayEvent → Bool
  | RelayEvent.send (SendEvent.opusSend _) => true
  | _ => false

/-! ## The loops of `streamAudio` (main.go) and `receiveAudio` (receiver_bot.go)

Both functions decode straight into the playback buffer `out` of 960
samples and write it, with no buffer in between. -/

/-- What one iteration of such a receive loop observes. -/
structure DirectRecvEnv where
  /-- Whether `stopChan` is readable at the `select`. -/
  stop : Bool
  /-- The connection `vc`; `none` is the nil pointer. -/
  vc : Option VoiceConn
  /-- What `<-vc.OpusRecv` yields: `none` for a closed channel (`ok == false`). -/
  recv : Option Packet
  /-- Whether `opusDecoder.Decode(p.Opus, out)` returns a nil error. -/
  decodeOk : Bool
  /-- The contents of the buffer `out` after the call of the decoder. -/
  out : List Sample
  /-- Whether `speakerStream.Write()` succeeds. -/
  writeOk : Bool
deriving DecidableEq, Repr

/-- What such a receive loop does to the outside. -/
inductive DirectRecvEvent where
  /-- The `stopChan` case of the `select` was taken. -/
  | stopSeen
  /-- The call `speakerStream.Stop()`. -/
  | speakerStop
  /-- The test `vc == nil` succeeded. -/
  | vcNil
  /-- The flag `vc.Ready` was read in a condition, with this value. -/
  | readReady (b : Bool)
  /-- The call `time.Sleep` with this many milliseconds. -/
  | sleep (ms : Nat)
  /-- The receive `<-vc.OpusRecv` was performed; `none` when it found the channel closed. -/
  | chanRecv (p : Option Packet)
  /-- The call `opusDecoder.Decode` on this packet, and whether it succeeded. -/
  | decode (p : Packet) (ok : Bool)
  /-- The call `speakerStream.Write()` on these contents of `out`, and whether it succeeded. -/
  | write (out : List Sample) (ok : Bool)
deriving DecidableEq, Repr

/-- How an iteration of the goroutine of `streamAudio` ends: `continue`,
`return`, or never, when it receives from a nil channel. -/
inductive Flow where
  | next
  | ret
  | blocked
deriving DecidableEq, Repr

/-- One iteration of the receive goroutine of `streamAudio`, main.go lines
191-220. The condition `vc == nil || !vc.Ready` returns; there is no test of
`vc.OpusRecv == nil`, and a receive from a nil channel blocks for ever. -/
def streamAudioRecvIter (speaker : Bool) (e : DirectRecvEnv) : List DirectRecvEvent × Flow :=
  if e.stop then ([DirectRecvEvent.stopSeen], Flow.ret)
  else
    match e.vc with
    | none => ([DirectRecvEvent.vcNil], Flow.ret)
    | some vc =>
      if !vc.ready then ([DirectRecvEvent.readReady false], Flow.ret)
      else if vc.opusRecvNil then ([DirectRecvEvent.readReady true], Flow.blocked)
      else
        match e.recv with
        | none => ([DirectRecvEvent.readReady true, DirectRecvEvent.chanRecv none], Flow.ret)
        | some p =>
          if !e.decodeOk then
            ([DirectRecvEvent.readReady true, DirectRecvEvent.chanRecv (some p),
              DirectRecvEvent.decode p false], Flow.next)
          else
            ([DirectRecvEvent.readReady true, DirectRecvEvent.chanRecv (some p),
              DirectRecvEvent.decode p true] ++
              (if speaker then [DirectRecvEvent.write e.out e.writeOk] else []), Flow.next)

/-- The receive goroutine of `streamAudio` over the observations of its
successive iterations; it stops at the first iteration that does not continue. -/
def streamAudioRecvLoop (speaker : Bool) : List DirectRecvEnv → List DirectRecvEvent × Flow
  | [] => ([], Flow.next)
  | e :: es =>
    match streamAudioRecvIter speaker e with
    | (evs, Flow.next) =>
      (evs ++ (streamAudioRecvLoop speaker es).1, (streamAudioRecvLoop speaker es).2)
    | (evs, Flow.ret) => (evs, Flow.ret)
    | (evs, Flow.blocked) => (evs, Flow.blocked)

/-- One iteration of the loop of `receiveAudio`, receiver_bot.go lines
228-271. The flag `vc.Ready` is read once more for a log line before the
receive; logging is not part of the events. -/
def receiveAudioIter (speaker : Bool) (e : DirectRecvEnv) : List DirectRecvEvent × Ctl :=
  if e.stop then ([DirectRecvEvent.stopSeen, DirectRecvEvent.speakerStop], Ctl.ret)
  else
    match e.vc with
    | none => ([DirectRecvEvent.vcNil], Ctl.ret)
    | some vc =>
      if !vc.ready then
        ([DirectRecvEvent.readReady false, DirectRecvEvent.sleep 500], Ctl.next)
      else if vc.opusRecvNil then
        ([DirectRecvEvent.readReady true, DirectRecvEvent.sleep 500], Ctl.next)
      else
        match e.recv with
        | none => ([DirectRecvEvent.readReady true, DirectRecvEvent.chanRecv none], Ctl.ret)
        | some p =>
          if !e.decodeOk then
            ([DirectRecvEvent.readReady true, DirectRecvEvent.chanRecv (some p),
              DirectRecvEvent.decode p false], Ctl.next)
          else
            ([DirectRecvEvent.readReady true, DirectRecvEvent.chanRecv (some p),
              DirectRecvEvent.decode p true] ++
              (if speaker then [DirectRecvEvent.write e.out e.writeOk] else []), Ctl.next)

/-- The loop of `receiveAudio` over the observations of its successive
iterations; it stops at the first iteration that returns. -/
def receiveAudioLoop (speaker : Bool) : List DirectRecvEnv → List DirectRecvEvent × Ctl
  | [] => ([], Ctl.next)
  | e :: es =>
    match receiveAudioIter speaker e with
    | (evs, Ctl.ret) => (evs, Ctl.ret)
    | (evs, Ctl.next) =>
      (evs ++ (receiveAudioLoop speaker es).1, (receiveAudioLoop speaker es).2)

/-- One iteration of the send loop of `streamAudio`, main.go lines 236-258.
The error of `micStream.Read()` is tested, but the body of the test is empty:
the encoder is called on `in` whatever the read returned. -/
def streamAudioSendIter (e : SendEnv) : List SendEvent × Ctl :=
  if e.stop then ([SendEvent.stopSeen, SendEvent.micStop, SendEvent.speakerStop], Ctl.ret)
  else
    match e.enc with
    | none => ([SendEvent.micRead e.readOk, SendEvent.encode e.mic none], Ctl.next)
    | some p =>
      if e.ready then
        ([SendEvent.micRead e.readOk, SendEvent.encode e.mic (some p),
          SendEvent.readReady true, SendEvent.opusSend p], Ctl.next)
      else
        ([SendEvent.micRead e.readOk, SendEvent.encode e.mic (some p),
          SendEvent.readReady false], Ctl.next)

/-- The send loop of `streamAudio` over the observations of its successive iterations. -/
def streamAudioSendLoop : List SendEnv → List SendEvent × Ctl
  | [] => ([], Ctl.next)
  | e :: es =>
    match streamAudioSendIter e with
    | (evs, Ctl.ret) => (evs, Ctl.ret)
    | (evs, Ctl.next) => (evs ++ (streamAudioSendLoop es).1, (streamAudioSendLoop es).2)

/-- A receive iteration with no stop signal and a non-nil session that is not
ready; a packet would be there to receive and decode. -/
def stalledEnv : DirectRecvEnv :=
  ⟨false, some ⟨false, false⟩, some [1], true, List.replicate 960 0, true⟩

/-- A receive iteration with no stop signal and a ready session: the packet
is received, decoded and played. -/
def readyEnv : DirectRecvEnv :=
  ⟨false, some ⟨true, false⟩, some [1], true, List.replicate 960 0, true⟩

/-- A send iteration with no stop signal in which `micStream.Read()` fails,
while the encoder returns a packet and the session is ready. -/
def readErrorEnv : SendEnv := ⟨false, false, List.replicate 960 0, some [7], true⟩

end DiscordBot

namespace DiscordBot

/-! ## Properties of `outputFramesFromEnv` -/

theorem trimSpace_eq_nil_of_all_space (v : List Char) (h : ∀ c ∈ v, isSpace c = true) :
    trimSpace v = [] := by
  have h1 : v.dropWhile isSpace = [] := List.dropWhile_eq_nil_iff.mpr h
  simp [trimSpace, h1]

theorem atoi_nil : atoi [] = none := by
  simp [atoi]

/-- The model of `strconv.Atoi` on sample inputs: a sign is accepted, a digit
is required, other characters and values outside of `int` are errors. -/
theorem atoi_samples :
    atoi "960".toList = some 960 ∧ atoi "+48".toList = some 48 ∧
    atoi "-5".toList = some (-5) ∧ atoi "0".toList = some 0 ∧
    atoi "-".toList = none ∧ atoi "12a".toList = none ∧ atoi "1_000".toList = none ∧
    atoi "9223372036854775807".toList = some 9223372036854775807 ∧
    atoi "9223372036854775808".toList = none ∧
    atoi "-9223372036854775808".toList = some (-9223372036854775808) := by
  decide

/-- C4: `outputFramesFromEnv` returns a strictly positive integer for every
state of `OUTPUT_FRAMES`; it returns 1920 when the variable is unset, empty or
only white space, 1920 when the trimmed value does not parse or parses to a
number that is not positive, and otherwise the parsed number itself. -/
theorem outputFramesFromEnv_validates (env : Option (List Char)) :
    0 < outputFramesFromEnv env ∧
    (env = none → outputFramesFromEnv env = 1920) ∧
    (env = some [] → outputFramesFromEnv env = 1920) ∧
    (∀ v, env = some v → (∀ c ∈ v, isSpace c = true) → outputFramesFromEnv env = 1920) ∧
    (atoi (trimSpace (getenv env)) = none → outputFramesFromEnv env = 1920) ∧
    (∀ n, atoi (trimSpace (getenv env)) = some n → n ≤ 0 → outputFramesFromEnv env = 1920) ∧
    (∀ n, atoi (trimSpace (getenv env)) = some n → 0 < n → outputFramesFromEnv env = n) := by
  refine ⟨?_, ?_, ?_, ?_, ?_, ?_, ?_⟩
  · unfold outputFramesFromEnv
    simp only
    split
    · decide
    · split
      · decide
      · split
        · decide
        · omega
  · intro h
    subst h
    simp [outputFramesFromEnv, getenv, trimSpace]
  · intro h
    subst h
    simp [outputFramesFromEnv, getenv, trimSpace]
  · intro v hv hall
    subst hv
    simp [outputFramesFromEnv, getenv, trimSpace_eq_nil_of_all_space v hall]
  · intro h
    simp [outputFramesFromEnv, h]
  · intro n h hn
    simp [outputFramesFromEnv, h, hn]
  · intro n h hn
    have hne : trimSpace (getenv env) ≠ [] := by
      intro h0
      rw [h0, atoi_nil] at h
      cases h
    have hn2 : ¬ n ≤ 0 := by omega
    simp [outputFramesFromEnv, h, hne, hn2]

/-- C4 at concrete values: a padded number is returned as parsed, and zero, a
negative number, a word and a blank value all give 1920. -/
theorem outputFramesFromEnv_validates_witness :
    outputFramesFromEnv (some " 960\n".toList) = 960 ∧
    outputFramesFromEnv (some "0".toList) = 1920 ∧
    outputFramesFromEnv (some "-960".toList) = 1920 ∧
    outputFramesFromEnv (some "big".toList) = 1920 ∧
    outputFramesFromEnv (some "   ".toList) = 1920 ∧
    outputFramesFromEnv none = 1920 :=
  ⟨(outputFramesFromEnv_validates (some " 960\n".toList)).2.2.2.2.2.2 960 (by decide) (by decide),
    by decide, by decide, by decide, by decide, by decide⟩

/-! ## Properties of the drain loop -/

theorem copied_append (xs ys : List RecvEvent) : copied (xs ++ ys) = copied xs ++ copied ys := by
  induction xs with
  | nil => rfl
  | cons x xs ih => cases x <;> simp [copied, ih]

theorem written_append (xs ys : List RecvEvent) :
    written (xs ++ ys) = written xs ++ written ys := by
  induction xs with
  | nil => rfl
  | cons x xs ih =>
    cases x with
    | play b r => cases r <;> simp [written, ih]
    | _ => simp [written, ih]

theorem mem_copied_of_play (b : List Sample) (r : Option Bool) :
    ∀ evs : List RecvEvent, RecvEvent.play b r ∈ evs → b ∈ copied evs := by
  intro evs
  induction evs with
  | nil => intro hb; simp at hb
  | cons ev evs ih =>
    intro hb
    simp only [List.mem_cons] at hb
    rcases hb with hb | hb
    · subst hb; simp [copied]
    · have := ih hb
      cases ev <;> simp [copied, this]

/-- With `F > 0` and more fuel than samples, the drain loop ends; the blocks
it copies, followed by what it leaves, are the buffer it started from. -/
theorem drainLoop_some (F : Nat) (hF : 0 < F) (sp : Bool) (w : Nat → Bool) :
    ∀ (fuel k : Nat) (pending : List Sample), pending.length < fuel →
      ∃ evs rest, drainLoop F sp w fuel k pending = some (evs, rest) ∧
        (copied evs).flatten ++ rest = pending ∧ rest.length < F ∧
        (∀ b ∈ copied evs, b.length = F) ∧
        (sp = true → written evs = copied evs) ∧
        (∀ ev ∈ evs, ∃ b r, ev = RecvEvent.play b r) ∧
        (pending.length < F → evs = [] ∧ rest = pending) := by
  intro fuel
  induction fuel with
  | zero => intro k pending h; omega
  | succ fuel ih =>
    intro k pending h
    by_cases hle : F ≤ pending.length
    · have hlen : (pending.drop F).length < fuel := by
        rw [List.length_drop]; omega
      obtain ⟨evs, rest, h1, h2, h3, h4, h5, h6, _⟩ := ih (k + 1) (pending.drop F) hlen
      refine ⟨RecvEvent.play (pending.take F) (if sp then some (w k) else none) :: evs, rest,
        ?_, ?_, h3, ?_, ?_, ?_, ?_⟩
      · simp [drainLoop, hle, h1]
      · simp only [copied, List.flatten_cons, List.append_assoc, h2, List.take_append_drop]
      · intro b hb
        simp only [copied, List.mem_cons] at hb
        rcases hb with hb | hb
        · rw [hb, List.length_take]; omega
        · exact h4 b hb
      · intro hsp
        subst hsp
        simp [written, copied, h5 rfl]
      · intro ev hev
        simp only [List.mem_cons] at hev
        rcases hev with hev | hev
        · exact ⟨_, _, hev⟩
        · exact h6 ev hev
      · intro hlt; omega
    · refine ⟨[], pending, ?_, ?_, ?_, ?_, ?_, ?_, ?_⟩
      · simp [drainLoop, hle]
      · simp [copied]
      · omega
      · intro b hb; simp [copied] at hb
      · intro _; rfl
      · intro ev hev; simp at hev
      · intro _; exact ⟨rfl, rfl⟩

theorem drainLoop_succ (F : Nat) (sp : Bool) (w : Nat → Bool) (fuel k : Nat)
    (pending : List Sample) :
    drainLoop F sp w (fuel + 1) k pending =
      if F ≤ pending.length then
        match drainLoop F sp w fuel (k + 1) (pending.drop F) with
        | none => none
        | some (evs, rest) =>
          some (RecvEvent.play (pending.take F) (if sp then some (w k) else none) :: evs, rest)
      else some ([], pending) := rfl

/-- Below the threshold the drain loop does nothing. -/
theorem drainLoop_of_lt (F : Nat) (sp : Bool) (w : Nat → Bool) (fuel k : Nat)
    (pending : List Sample) (hlt : pending.length < F) (hfuel : 0 < fuel) :
    drainLoop F sp w fuel k pending = some ([], pending) := by
  cases fuel with
  | zero => omega
  | succ fuel => rw [drainLoop_succ, if_neg (by omega)]

/-- For `F = 0` the Go loop never ends, and the drain loop has no result on any fuel. -/
theorem drainLoop_zero_none (sp : Bool) (w : Nat → Bool) :
    ∀ (fuel k : Nat) (pending : List Sample), drainLoop 0 sp w fuel k pending = none := by
  intro fuel
  induction fuel with
  | zero => intro k pending; rfl
  | succ fuel ih => intro k pending; simp [drainLoop, ih]

/-- The drain loop for `F > 0`: it ends, and its result is described by what it copied. -/
theorem drain_some (F : Nat) (hF : 0 < F) (sp : Bool) (w : Nat → Bool) (pending : List Sample) :
    ∃ evs rest, drain F sp w pending = some (evs, rest) ∧
      (copied evs).flatten ++ rest = pending ∧ rest.length < F ∧
      (∀ b ∈ copied evs, b.length = F) ∧
      (sp = true → written evs = copied evs) ∧
      (∀ ev ∈ evs, ∃ b r, ev = RecvEvent.play b r) ∧
      (pending.length < F → evs = [] ∧ rest = pending) :=
  drainLoop_some F hF sp w (pending.length + 1) 0 pending (Nat.lt_succ_self _)

/-- C2: for every block size `F > 0` and every buffer, the drain loop ends,
every block it hands to the playback port has exactly `F` samples, and when
the buffer holds fewer than `F` samples it hands over no block and leaves the
buffer as it is. -/
theorem drain_flush_threshold (F : Nat) (hF : 0 < F) (sp : Bool) (w : Nat → Bool)
    (pending : List Sample) :
    ∃ evs rest, drain F sp w pending = some (evs, rest) ∧
      (∀ b r, RecvEvent.play b r ∈ evs → F ≤ b.length ∧ b.length = F) ∧
      (pending.length < F → evs = [] ∧ rest = pending) := by
  obtain ⟨evs, rest, h1, _, _, h4, _, _, h7⟩ := drain_some F hF sp w pending
  refine ⟨evs, rest, h1, ?_, h7⟩
  intro b r hb
  have := h4 b (mem_copied_of_play b r evs hb)
  omega

/-- C2 at `F = 2`: five pending samples give two blocks of two samples and
leave one; a single pending sample gives no block. -/
theorem drain_flush_threshold_witness :
    drain 2 true (fun _ => true) [1, 2, 3, 4, 5] =
      some ([RecvEvent.play [1, 2] (some true), RecvEvent.play [3, 4] (some true)], [5]) ∧
    drain 2 true (fun _ => true) [1] = some ([], [1]) ∧
    ∃ evs rest, drain 2 true (fun _ => true) [1, 2, 3, 4, 5] = some (evs, rest) ∧
      (∀ b r, RecvEvent.play b r ∈ evs → 2 ≤ b.length ∧ b.length = 2) ∧
      (([1, 2, 3, 4, 5] : List Sample).length < 2 → evs = [] ∧ rest = [1, 2, 3, 4, 5]) :=
  ⟨by decide, by decide, drain_flush_threshold 2 (by decide) true (fun _ => true) [1, 2, 3, 4, 5]⟩

end DiscordBot

namespace DiscordBot

/-! ## Properties of the receive loop -/

theorem length_flatten_of_length_eq (F : Nat) :
    ∀ L : List (List Sample), (∀ b ∈ L, b.length = F) → L.flatten.length = F * L.length := by
  intro L
  induction L with
  | nil => intro _; simp
  | cons b L ih =>
    intro h
    have hb : b.length = F := h b (List.mem_cons_self _ _)
    have hL := ih (fun c hc => h c (List.mem_cons_of_mem _ hc))
    simp only [List.flatten_cons, List.length_append, List.length_cons, hb, hL]
    rw [Nat.mul_succ]
    omega

/-- An iteration that appends a decoded block: it ends for `F > 0`, and its
events are the three of the receive and decode followed by those of the drain loop. -/
theorem recvIter_pushEnv (F : Nat) (hF : 0 < F) (sp : Bool) (pending : List Sample)
    (p : Packet) (block : List Sample) (w : Nat → Bool) :
    ∃ evs rest, drain F sp w (pending ++ block) = some (evs, rest) ∧
      recvIter F sp pending (pushEnv p block w) =
        some ⟨[RecvEvent.readReady true, RecvEvent.chanRecv (some p),
          RecvEvent.decode p (DecodeResult.ok block)] ++ evs, rest, Ctl.next⟩ := by
  obtain ⟨evs, rest, h1, _⟩ := drain_some F hF sp w (pending ++ block)
  exact ⟨evs, rest, h1, by simp [recvIter, pushEnv, h1]⟩

/-- Every iteration ends for `F > 0`, and keeps the buffer shorter than `F`. -/
theorem recvIter_some (F : Nat) (hF : 0 < F) (sp : Bool) (pending : List Sample) (e : RecvEnv)
    (hp : pending.length < F) :
    ∃ o, recvIter F sp pending e = some o ∧ o.pending.length < F := by
  unfold recvIter
  split
  · exact ⟨_, rfl, hp⟩
  · split
    · exact ⟨_, rfl, hp⟩
    · split
      · exact ⟨_, rfl, hp⟩
      · split
        · exact ⟨_, rfl, hp⟩
        · split
          · exact ⟨_, rfl, hp⟩
          · split
            · exact ⟨_, rfl, hp⟩
            · rename_i samples _
              obtain ⟨evs, rest, h1, _, h3, _⟩ := drain_some F hF sp e.writeOk (pending ++ samples)
              simp only [h1]
              exact ⟨_, rfl, h3⟩

/-- The whole loop ends for `F > 0` on every sequence of observations, and
keeps the buffer shorter than `F`. -/
theorem recvLoop_some (F : Nat) (hF : 0 < F) (sp : Bool) :
    ∀ (es : List RecvEnv) (pending : List Sample), pending.length < F →
      ∃ o, recvLoop F sp pending es = some o ∧ o.pending.length < F := by
  intro es
  induction es with
  | nil => intro pending hp; exact ⟨_, rfl, hp⟩
  | cons e es ih =>
    intro pending hp
    obtain ⟨o, ho, hlt⟩ := recvIter_some F hF sp pending e hp
    cases hc : o.ctl with
    | ret => exact ⟨o, by simp [recvLoop, ho, hc], hlt⟩
    | next =>
      obtain ⟨o2, ho2, hlt2⟩ := ih o.pending hlt
      exact ⟨⟨o.events ++ o2.events, o2.pending, o2.ctl⟩, by simp [recvLoop, ho, hc, ho2], hlt2⟩

/-- The loop over iterations that each append a block: what has been copied
so far, followed by the buffer, is the starting buffer followed by the blocks. -/
theorem recvLoop_pushEnv (F : Nat) (hF : 0 < F) (sp : Bool) :
    ∀ (its : List (Packet × List Sample × (Nat → Bool))) (pending : List Sample),
      ∃ o, recvLoop F sp pending (its.map fun it => pushEnv it.1 it.2.1 it.2.2) = some o ∧
        o.ctl = Ctl.next ∧
        (copied o.events).flatten ++ o.pending = pending ++ (its.map fun it => it.2.1).flatten ∧
        (∀ b ∈ copied o.events, b.length = F) ∧
        (sp = true → written o.events = copied o.events) ∧
        (pending.length < F → o.pending.length < F) := by
  intro its
  induction its with
  | nil =>
    intro pending
    exact ⟨⟨[], pending, Ctl.next⟩, rfl, rfl, by simp [copied], by simp [copied],
      fun _ => rfl, fun h => h⟩
  | cons it its ih =>
    intro pending
    obtain ⟨evs, rest, hd, hi⟩ := recvIter_pushEnv F hF sp pending it.1 it.2.1 it.2.2
    obtain ⟨evs1, rest1, hd1, h2, h3, h4, h5, _⟩ := drain_some F hF sp it.2.2 (pending ++ it.2.1)
    rw [hd] at hd1
    simp only [Option.some.injEq, Prod.mk.injEq] at hd1
    obtain ⟨he, hr⟩ := hd1
    subst he hr
    obtain ⟨o2, ho2, hc2, hcat, hlen, hw, hlt⟩ := ih rest
    have hcop : copied (([RecvEvent.readReady true, RecvEvent.chanRecv (some it.1),
        RecvEvent.decode it.1 (DecodeResult.ok it.2.1)] ++ evs) ++ o2.events) =
        copied evs ++ copied o2.events := by
      simp [copied_append, copied]
    have hwri : written (([RecvEvent.readReady true, RecvEvent.chanRecv (some it.1),
        RecvEvent.decode it.1 (DecodeResult.ok it.2.1)] ++ evs) ++ o2.events) =
        written evs ++ written o2.events := by
      simp [written_append, written]
    refine ⟨⟨([RecvEvent.readReady true, RecvEvent.chanRecv (some it.1),
      RecvEvent.decode it.1 (DecodeResult.ok it.2.1)] ++ evs) ++ o2.events, o2.pending, o2.ctl⟩,
      ?_, hc2, ?_, ?_, ?_, ?_⟩
    · simp only [List.map_cons, recvLoop, hi, ho2]
    · show (copied (([RecvEvent.readReady true, RecvEvent.chanRecv (some it.1),
        RecvEvent.decode it.1 (DecodeResult.ok it.2.1)] ++ evs) ++ o2.events)).flatten ++
        o2.pending = _
      rw [hcop, List.flatten_append, List.append_assoc, hcat, ← List.append_assoc, h2]
      simp
    · intro b hb
      have hb2 : b ∈ copied evs ++ copied o2.events := by
        rw [← hcop]; exact hb
      rcases List.mem_append.mp hb2 with hb3 | hb3
      · exact h4 b hb3
      · exact hlen b hb3
    · intro hsp
      show written (([RecvEvent.readReady true, RecvEvent.chanRecv (some it.1),
        RecvEvent.decode it.1 (DecodeResult.ok it.2.1)] ++ evs) ++ o2.events) =
        copied (([RecvEvent.readReady true, RecvEvent.chanRecv (some it.1),
        RecvEvent.decode it.1 (DecodeResult.ok it.2.1)] ++ evs) ++ o2.events)
      rw [hcop, hwri, h5 hsp, hw hsp]
    · intro _
      exact hlt h3

/-- Splitting a list at the largest multiple of `F`: when `C ++ P = T`, the
length of `C` is a multiple of `F` and `P` is shorter than `F`. -/
theorem split_at_multiple (F n : Nat) (C P T : List Sample) (h : C ++ P = T)
    (hC : C.length = F * n) (hP : P.length < F) :
    C = T.take (T.length / F * F) ∧ P = T.drop (T.length / F * F) := by
  have hF : 0 < F := by omega
  have hT : T.length = F * n + P.length := by rw [← h, List.length_append, hC]
  have hdiv : T.length / F * F = C.length := by
    rw [hT, hC, Nat.mul_comm F n, Nat.add_comm, Nat.add_mul_div_right _ _ hF,
      Nat.div_eq_of_lt hP]
    simp
  rw [hdiv, ← h]
  exact ⟨(List.take_left' rfl).symm, (List.drop_left' rfl).symm⟩

/-- The scenario of two blocks of 960 samples with a block size of 1920: the
first iteration writes nothing, the second writes the one block `A ++ B` and
empties the buffer. -/
theorem recvGoroutine_two_blocks (A B : List Sample) (hA : A.length = 960) (hB : B.length = 960)
    (p q : Packet) (w1 w2 : Nat → Bool) :
    recvGoroutine 1920 true [pushEnv p A w1, pushEnv q B w2] =
      some ⟨[RecvEvent.readReady true, RecvEvent.chanRecv (some p),
        RecvEvent.decode p (DecodeResult.ok A), RecvEvent.readReady true,
        RecvEvent.chanRecv (some q), RecvEvent.decode q (DecodeResult.ok B),
        RecvEvent.play (A ++ B) (some (w2 0))], [], Ctl.next⟩ := by
  have hlen : (A ++ B).length = 1920 := by simp [hA, hB]
  have h1 : drain 1920 true w1 A = some ([], A) := by
    unfold drain
    exact drainLoop_of_lt 1920 true w1 _ 0 A (by omega) (by omega)
  have h2 : drain 1920 true w2 (A ++ B) =
      some ([RecvEvent.play (A ++ B) (some (w2 0))], []) := by
    have htake : (A ++ B).take 1920 = A ++ B := List.take_of_length_le (by omega)
    have hdrop : (A ++ B).drop 1920 = [] := List.drop_of_length_le (by omega)
    unfold drain
    rw [drainLoop_succ, if_pos (by omega), hdrop,
      drainLoop_of_lt 1920 true w2 _ _ [] (by simp) (by omega), htake]
    rfl
  simp [recvGoroutine, recvLoop, recvIter, pushEnv, h1, h2]

/-- C1: frame integrity. For every block size `F > 0` and every sequence of
iterations that each append a decoded block of 960 samples to the buffer,
started from the empty buffer and whatever the playback writes return, the
receive loop ends, the blocks copied to `out` (and written, when the
playback stream is not nil) are, concatenated, the pushed samples cut at the
largest multiple of `F`, and the buffer holds the samples after the cut. -/
theorem frame_integrity (F : Nat) (hF : 0 < F) (sp : Bool)
    (its : List (Packet × List Sample × (Nat → Bool)))
    (h960 : ∀ it ∈ its, it.2.1.length = 960) :
    ∃ o, recvGoroutine F sp (its.map fun it => pushEnv it.1 it.2.1 it.2.2) = some o ∧
      o.ctl = Ctl.next ∧
      (copied o.events).flatten =
        (its.map fun it => it.2.1).flatten.take
          ((its.map fun it => it.2.1).flatten.length / F * F) ∧
      (sp = true → (written o.events).flatten =
        (its.map fun it => it.2.1).flatten.take
          ((its.map fun it => it.2.1).flatten.length / F * F)) ∧
      o.pending =
        (its.map fun it => it.2.1).flatten.drop
          ((its.map fun it => it.2.1).flatten.length / F * F) ∧
      (its.map fun it => it.2.1).flatten.length = 960 * its.length := by
  obtain ⟨o, ho, hc, hcat, hlen, hw, hlt⟩ := recvLoop_pushEnv F hF sp its []
  have hsplit := split_at_multiple F (copied o.events).length (copied o.events).flatten
    o.pending _ (by simpa using hcat) (length_flatten_of_length_eq F _ hlen) (hlt hF)
  refine ⟨o, ho, hc, hsplit.1, ?_, hsplit.2, ?_⟩
  · intro hsp
    rw [hw hsp]
    exact hsplit.1
  · have := length_flatten_of_length_eq 960 (its.map fun it => it.2.1) (by
      intro b hb
      simp only [List.mem_map] at hb
      obtain ⟨it, hit, rfl⟩ := hb
      exact h960 it hit)
    simpa using this

end DiscordBot

namespace DiscordBot

/-- C1 in the scenario of the specification: with `F = 1920`, pushing a block
`A` and then a block `B` of 960 samples each gives exactly one written block,
`A ++ B`, and an empty buffer, also when the write fails. -/
theorem frame_integrity_witness :
    recvGoroutine 1920 true (twoBlocks.map fun it => pushEnv it.1 it.2.1 it.2.2) =
      some ⟨[RecvEvent.readReady true, RecvEvent.chanRecv (some [1]),
        RecvEvent.decode [1] (DecodeResult.ok (List.replicate 960 1)),
        RecvEvent.readReady true, RecvEvent.chanRecv (some [2]),
        RecvEvent.decode [2] (DecodeResult.ok (List.replicate 960 2)),
        RecvEvent.play (List.replicate 960 1 ++ List.replicate 960 2) (some false)], [],
        Ctl.next⟩ ∧
    ∃ o, recvGoroutine 1920 true (twoBlocks.map fun it => pushEnv it.1 it.2.1 it.2.2) = some o ∧
      (written o.events).flatten =
        (twoBlocks.map fun it => it.2.1).flatten.take
          ((twoBlocks.map fun it => it.2.1).flatten.length / 1920 * 1920) ∧
      o.pending =
        (twoBlocks.map fun it => it.2.1).flatten.drop
          ((twoBlocks.map fun it => it.2.1).flatten.length / 1920 * 1920) :=
  ⟨recvGoroutine_two_blocks _ _ (List.length_replicate _ _) (List.length_replicate _ _) _ _ _ _,
    (frame_integrity 1920 (by decide) true twoBlocks (by
        intro it hit
        simp only [twoBlocks, List.mem_cons, List.mem_singleton, List.not_mem_nil,
          or_false] at hit
        rcases hit with rfl | rfl <;> exact List.length_replicate _ _)).imp
      fun _ h => ⟨h.1, h.2.2.2.1 rfl, h.2.2.2.2.1⟩⟩

/-- C3: the invariant of the buffer `pending`. For every `F > 0` it holds of
the empty buffer the goroutine starts with, every iteration ends and
preserves it, whatever the iteration observes (stop signal, readiness,
packet, decoder result, write results), and so it holds at the end of every
iteration of every run of the goroutine. -/
theorem pending_invariant (F : Nat) (hF : 0 < F) (sp : Bool) :
    ([] : List Sample).length < F ∧
    (∀ (pending : List Sample) (e : RecvEnv), pending.length < F →
      ∃ o, recvIter F sp pending e = some o ∧ o.pending.length < F) ∧
    (∀ es : List RecvEnv, ∃ o, recvGoroutine F sp es = some o ∧ o.pending.length < F) :=
  ⟨hF, fun pending e hp => recvIter_some F hF sp pending e hp,
    fun es => recvLoop_some F hF sp es [] hF⟩

/-- C3 at `F = 3`: a buffer of two samples and a decoded block of two samples
leave one sample, and a decode error leaves the two samples. -/
theorem pending_invariant_witness :
    recvIter 3 true [1, 2] (pushEnv [0] [3, 4] fun _ => true) =
      some ⟨[RecvEvent.readReady true, RecvEvent.chanRecv (some [0]),
        RecvEvent.decode [0] (DecodeResult.ok [3, 4]),
        RecvEvent.play [1, 2, 3] (some true)], [4], Ctl.next⟩ ∧
    (∀ (pending : List Sample) (e : RecvEnv), pending.length < 3 →
      ∃ o, recvIter 3 true pending e = some o ∧ o.pending.length < 3) :=
  ⟨by decide, (pending_invariant 3 (by decide) true).2.1⟩

theorem recvLoop_cons_next (F : Nat) (sp : Bool) (pending rest : List Sample) (e : RecvEnv)
    (es : List RecvEnv) (evs : List RecvEvent)
    (h : recvIter F sp pending e = some ⟨evs, rest, Ctl.next⟩) :
    recvLoop F sp pending (e :: es) =
      (recvLoop F sp rest es).map fun o => ⟨evs ++ o.events, o.pending, o.ctl⟩ := by
  simp only [recvLoop, h]
  cases recvLoop F sp rest es <;> rfl

theorem recvLoop_cons_ret (F : Nat) (sp : Bool) (pending rest : List Sample) (e : RecvEnv)
    (es : List RecvEnv) (evs : List RecvEvent)
    (h : recvIter F sp pending e = some ⟨evs, rest, Ctl.ret⟩) :
    recvLoop F sp pending (e :: es) = some ⟨evs, rest, Ctl.ret⟩ := by
  simp only [recvLoop, h]

/-- C7: an iteration that receives a packet on which the decoder returns an
error leaves the buffer `pending` as it was, copies and writes no block, and
does not end the loop: the loop goes on with the next iteration from the same
buffer. -/
theorem decode_error_skips (F : Nat) (sp : Bool) (pending : List Sample) (e : RecvEnv)
    (es : List RecvEnv) (p : Packet)
    (hstop : e.stop = false) (hvc : e.vc = some ⟨true, false⟩) (hrecv : e.recv = some p)
    (hdec : e.decode = DecodeResult.err) :
    recvIter F sp pending e =
      some ⟨[RecvEvent.readReady true, RecvEvent.chanRecv (some p),
        RecvEvent.decode p DecodeResult.err], pending, Ctl.next⟩ ∧
    copied [RecvEvent.readReady true, RecvEvent.chanRecv (some p),
        RecvEvent.decode p DecodeResult.err] = [] ∧
    recvLoop F sp pending (e :: es) =
      (recvLoop F sp pending es).map fun o =>
        ⟨[RecvEvent.readReady true, RecvEvent.chanRecv (some p),
          RecvEvent.decode p DecodeResult.err] ++ o.events, o.pending, o.ctl⟩ := by
  have h : recvIter F sp pending e =
      some ⟨[RecvEvent.readReady true, RecvEvent.chanRecv (some p),
        RecvEvent.decode p DecodeResult.err], pending, Ctl.next⟩ := by
    simp [recvIter, hstop, hvc, hrecv, hdec]
  exact ⟨h, rfl, recvLoop_cons_next F sp pending pending e es _ h⟩

/-- C7 at a buffer of two samples with `F = 3`: after the failed decode the
next packet is decoded and played with the two samples still in front. -/
theorem decode_error_skips_witness :
    recvLoop 3 true [1, 2]
        [⟨false, some ⟨true, false⟩, some [9], DecodeResult.err, fun _ => true⟩,
          pushEnv [0] [3, 4] fun _ => true] =
      some ⟨[RecvEvent.readReady true, RecvEvent.chanRecv (some [9]),
        RecvEvent.decode [9] DecodeResult.err,
        RecvEvent.readReady true, RecvEvent.chanRecv (some [0]),
        RecvEvent.decode [0] (DecodeResult.ok [3, 4]),
        RecvEvent.play [1, 2, 3] (some true)], [4], Ctl.next⟩ ∧
    recvIter 3 true [1, 2]
        ⟨false, some ⟨true, false⟩, some [9], DecodeResult.err, fun _ => true⟩ =
      some ⟨[RecvEvent.readReady true, RecvEvent.chanRecv (some [9]),
        RecvEvent.decode [9] DecodeResult.err], [1, 2], Ctl.next⟩ :=
  ⟨by decide,
    (decode_error_skips 3 true [1, 2]
      ⟨false, some ⟨true, false⟩, some [9], DecodeResult.err, fun _ => true⟩ [] [9]
      rfl rfl rfl rfl).1⟩

/-- C8: the gates of one receive iteration, in order. If the stop signal is
asserted the loop ends and nothing is received, whatever the rest of the
observation. Otherwise, with a connection that is not ready or whose inbound
channel is nil, the iteration reads the flag, sleeps 200 ms and the loop goes
on with the next iteration, without a receive. An iteration that performs a
receive saw no stop signal, a ready connection and a channel that is not nil.
A receive that finds the channel closed ends the loop. -/
theorem recv_gate_order (F : Nat) (sp : Bool) (pending : List Sample) (e : RecvEnv)
    (es : List RecvEnv) :
    (e.stop = true →
      recvIter F sp pending e = some ⟨[RecvEvent.stopSeen], pending, Ctl.ret⟩ ∧
      recvLoop F sp pending (e :: es) = some ⟨[RecvEvent.stopSeen], pending, Ctl.ret⟩) ∧
    (∀ vc, e.stop = false → e.vc = some vc → (vc.ready = false ∨ vc.opusRecvNil = true) →
      recvIter F sp pending e =
        some ⟨[RecvEvent.readReady vc.ready, RecvEvent.sleep 200], pending, Ctl.next⟩ ∧
      recvLoop F sp pending (e :: es) =
        (recvLoop F sp pending es).map fun o =>
          ⟨[RecvEvent.readReady vc.ready, RecvEvent.sleep 200] ++ o.events, o.pending,
            o.ctl⟩) ∧
    (∀ o, recvIter F sp pending e = some o → (∃ ev ∈ o.events, isChanRecv ev = true) →
      e.stop = false ∧ e.vc = some ⟨true, false⟩) ∧
    (e.stop = false → e.vc = some ⟨true, false⟩ → e.recv = none →
      recvIter F sp pending e =
        some ⟨[RecvEvent.readReady true, RecvEvent.chanRecv none], pending, Ctl.ret⟩ ∧
      recvLoop F sp pending (e :: es) =
        some ⟨[RecvEvent.readReady true, RecvEvent.chanRecv none], pending, Ctl.ret⟩) := by
  refine ⟨?_, ?_, ?_, ?_⟩
  · intro hstop
    have h : recvIter F sp pending e = some ⟨[RecvEvent.stopSeen], pending, Ctl.ret⟩ := by
      simp [recvIter, hstop]
    exact ⟨h, recvLoop_cons_ret F sp pending pending e es _ h⟩
  · intro vc hstop hvc hgate
    have h : recvIter F sp pending e =
        some ⟨[RecvEvent.readReady vc.ready, RecvEvent.sleep 200], pending, Ctl.next⟩ := by
      rcases vc with ⟨ready, isNil⟩
      cases ready <;> cases isNil <;> simp_all [recvIter]
    exact ⟨h, recvLoop_cons_next F sp pending pending e es _ h⟩
  · intro o ho hev
    cases hstop : e.stop with
    | true =>
      simp [recvIter, hstop] at ho
      subst ho
      simp [isChanRecv] at hev
    | false =>
      refine ⟨rfl, ?_⟩
      cases hvc : e.vc with
      | none =>
        simp [recvIter, hstop, hvc] at ho
        subst ho
        simp [isChanRecv] at hev
      | some vc =>
        rcases vc with ⟨ready, isNil⟩
        cases ready <;> cases isNil
        · simp [recvIter, hstop, hvc] at ho
          subst ho
          simp [isChanRecv] at hev
        · simp [recvIter, hstop, hvc] at ho
          subst ho
          simp [isChanRecv] at hev
        · rfl
        · simp [recvIter, hstop, hvc] at ho
          subst ho
          simp [isChanRecv] at hev
  · intro hstop hvc hrecv
    have h : recvIter F sp pending e =
        some ⟨[RecvEvent.readReady true, RecvEvent.chanRecv none], pending, Ctl.ret⟩ := by
      simp [recvIter, hstop, hvc, hrecv]
    exact ⟨h, recvLoop_cons_ret F sp pending pending e es _ h⟩

end DiscordBot

namespace DiscordBot

/-! ## Properties of the send loop -/

theorem sent_append (xs ys : List SendEvent) : sent (xs ++ ys) = sent xs ++ sent ys := by
  induction xs with
  | nil => rfl
  | cons x xs ih => cases x <;> simp [sent, ih]

theorem sendLoop_cons_next (e : SendEnv) (es : List SendEnv) (evs : List SendEvent)
    (h : sendIter e = (evs, Ctl.next)) :
    sendLoop (e :: es) = (evs ++ (sendLoop es).1, (sendLoop es).2) := by
  simp only [sendLoop, h]

theorem sendLoop_cons_ret (e : SendEnv) (es : List SendEnv) (evs : List SendEvent)
    (h : sendIter e = (evs, Ctl.ret)) :
    sendLoop (e :: es) = (evs, Ctl.ret) := by
  simp only [sendLoop, h]

/-- The send loop over iterations in which no stop signal is seen and the
read and the encoder succeed: it goes on, and sends the packets of the ready
iterations. -/
theorem sendLoop_all_encoded :
    ∀ es : List SendEnv,
      (∀ e ∈ es, e.stop = false ∧ e.readOk = true ∧ e.enc.isSome = true) →
      (sendLoop es).2 = Ctl.next ∧
      sent (sendLoop es).1 = (es.filter fun e => e.ready).filterMap fun e => e.enc := by
  intro es
  induction es with
  | nil => intro _; exact ⟨rfl, rfl⟩
  | cons e es ih =>
    intro h
    obtain ⟨hstop, hread, henc⟩ := h e (List.mem_cons_self _ _)
    obtain ⟨ih1, ih2⟩ := ih fun x hx => h x (List.mem_cons_of_mem _ hx)
    obtain ⟨p, hp⟩ := Option.isSome_iff_exists.mp henc
    cases hready : e.ready with
    | true =>
      have hi : sendIter e = ([SendEvent.micRead true, SendEvent.encode e.mic (some p),
          SendEvent.readReady true, SendEvent.opusSend p], Ctl.next) := by
        simp [sendIter, hstop, hread, hp, hready]
      rw [sendLoop_cons_next e es _ hi]
      refine ⟨ih1, ?_⟩
      simp [sent_append, sent, ih2, List.filter_cons, hready, hp]
    | false =>
      have hi : sendIter e = ([SendEvent.micRead true, SendEvent.encode e.mic (some p),
          SendEvent.readReady false], Ctl.next) := by
        simp [sendIter, hstop, hread, hp, hready]
      rw [sendLoop_cons_next e es _ hi]
      refine ⟨ih1, ?_⟩
      simp [sent_append, sent, ih2, List.filter_cons, hready]

/-- C5: readiness gating of the send loop. Over iterations in which the
capture read and the encoder succeed, the packets sent on the outbound
channel are, in order, the encoded packets of the iterations at which the
session was ready. What is sent in later iterations depends on those later
iterations alone: a packet encoded while the session was not ready is not
kept for them. -/
theorem send_readiness_gating (es : List SendEnv)
    (h : ∀ e ∈ es, e.stop = false ∧ e.readOk = true ∧ e.enc.isSome = true) :
    (sendLoop es).2 = Ctl.next ∧
    sent (sendLoop es).1 = ((es.filter fun e => e.ready).filterMap fun e => e.enc) ∧
    (∀ pre post, es = pre ++ post →
      sent (sendLoop es).1 = sent (sendLoop pre).1 ++ sent (sendLoop post).1 ∧
      sent (sendLoop post).1 = (post.filter fun e => e.ready).filterMap fun e => e.enc) := by
  obtain ⟨h1, h2⟩ := sendLoop_all_encoded es h
  refine ⟨h1, h2, ?_⟩
  intro pre post hes
  subst hes
  have hpre := (sendLoop_all_encoded pre fun e he => h e (List.mem_append_left _ he)).2
  have hpost := (sendLoop_all_encoded post fun e he => h e (List.mem_append_right _ he)).2
  refine ⟨?_, hpost⟩
  rw [h2, hpre, hpost, List.filter_append, List.filterMap_append]

/-- C5 in the scenario of the specification: the session is not ready for
three capture cycles and ready in the fourth; exactly one packet is sent, the
fourth, and the first three are encoded and dropped. -/
theorem send_readiness_gating_witness :
    sendLoop notReadyThenReady =
      ([SendEvent.micRead true, SendEvent.encode [] (some [1]), SendEvent.readReady false,
        SendEvent.micRead true, SendEvent.encode [] (some [2]), SendEvent.readReady false,
        SendEvent.micRead true, SendEvent.encode [] (some [3]), SendEvent.readReady false,
        SendEvent.micRead true, SendEvent.encode [] (some [4]), SendEvent.readReady true,
        SendEvent.opusSend [4]], Ctl.next) ∧
    sent (sendLoop notReadyThenReady).1 = [[4]] ∧
    sent (sendLoop notReadyThenReady).1 =
      ((notReadyThenReady.filter fun e => e.ready).filterMap fun e => e.enc) :=
  ⟨by decide, by decide,
    (send_readiness_gating notReadyThenReady (by decide)).2.1⟩

/-- C6: errors of one frame in the send loop. In an iteration (one that did
not see the stop signal) whose capture read fails, the encoder is not called
and nothing is sent; in an iteration whose encoder fails, nothing is sent; in
both cases the loop is not ended and goes on with the next iteration. -/
theorem send_error_skips (e : SendEnv) (es : List SendEnv) (hstop : e.stop = false) :
    (e.readOk = false →
      sendIter e = ([SendEvent.micRead false], Ctl.next) ∧
      (∀ ev ∈ (sendIter e).1, isEncode ev = false ∧ isOpusSend ev = false) ∧
      sendLoop (e :: es) = ([SendEvent.micRead false] ++ (sendLoop es).1, (sendLoop es).2)) ∧
    (e.readOk = true → e.enc = none →
      sendIter e = ([SendEvent.micRead true, SendEvent.encode e.mic none], Ctl.next) ∧
      (∀ ev ∈ (sendIter e).1, isOpusSend ev = false) ∧
      sendLoop (e :: es) =
        ([SendEvent.micRead true, SendEvent.encode e.mic none] ++ (sendLoop es).1,
          (sendLoop es).2)) := by
  constructor
  · intro hread
    have hi : sendIter e = ([SendEvent.micRead false], Ctl.next) := by
      simp [sendIter, hstop, hread]
    refine ⟨hi, ?_, sendLoop_cons_next e es _ hi⟩
    rw [hi]
    intro ev hev
    simp only [List.mem_singleton] at hev
    subst hev
    exact ⟨rfl, rfl⟩
  · intro hread henc
    have hi : sendIter e = ([SendEvent.micRead true, SendEvent.encode e.mic none], Ctl.next) := by
      simp [sendIter, hstop, hread, henc]
    refine ⟨hi, ?_, sendLoop_cons_next e es _ hi⟩
    rw [hi]
    intro ev hev
    simp only [List.mem_cons, List.mem_singleton, List.not_mem_nil, or_false] at hev
    rcases hev with rfl | rfl <;> rfl

/-- C6 at a read error followed by a ready iteration: the failed read sends
nothing, and the next iteration captures, encodes and sends. -/
theorem send_error_skips_witness :
    sendLoop [⟨false, false, [], some [1], true⟩, ⟨false, true, [5], some [2], true⟩] =
      ([SendEvent.micRead false, SendEvent.micRead true, SendEvent.encode [5] (some [2]),
        SendEvent.readReady true, SendEvent.opusSend [2]], Ctl.next) ∧
    sendIter ⟨false, false, [], some [1], true⟩ = ([SendEvent.micRead false], Ctl.next) :=
  ⟨by decide,
    ((send_error_skips ⟨false, false, [], some [1], true⟩ [] rfl).1 rfl).1⟩

/-! ## Properties of setup and of the relay as a whole -/

/-- C9, as the code has it: whenever a setup step fails the function returns
without entering the send loop; and when the failing step is the opening of
a port or the creation of the encoder or decoder, the receive goroutine has
not been spawned. -/
theorem setup_failure_no_send_loop (s : SetupEnv) (h : s.anyFailure = true) :
    SetupEvent.enterSendLoop ∉ setup s ∧
    (relayStart s).1.sendRunning = false ∧
    ((s.openMic && s.openSpeaker && s.newEncoder && s.newDecoder) = false →
      SetupEvent.spawnRecv ∉ setup s ∧ (relayStart s).1.recvRunning = false) := by
  rcases s with ⟨a, b, c, d, e, f⟩
  cases a <;> cases b <;> cases c <;> cases d <;> cases e <;> cases f <;>
    first
      | (exfalso; revert h; decide)
      | decide

/-- C9 at a failure to open the playback port: the capture port is closed
again, nothing is spawned and the send loop is not entered. -/
theorem setup_failure_no_send_loop_witness :
    setup ⟨true, false, true, true, true, true⟩ =
      [SetupEvent.speaking true, SetupEvent.paInitialize, SetupEvent.openMic,
        SetupEvent.openSpeaker, SetupEvent.closeMic, SetupEvent.paTerminate,
        SetupEvent.speaking false] ∧
    SetupEvent.enterSendLoop ∉ setup ⟨true, false, true, true, true, true⟩ :=
  ⟨by decide, (setup_failure_no_send_loop ⟨true, false, true, true, true, true⟩ (by decide)).1⟩

/-- C9 fails as stated: when every step succeeds but the start of the capture
port, a setup step has failed and the receive goroutine has been spawned, at
line 251, before the start was attempted at line 300. -/
theorem setup_failure_spawns_counterexample :
    ¬ (setupStartMicFails.anyFailure = true →
      SetupEvent.enterSendLoop ∉ setup setupStartMicFails ∧
      SetupEvent.spawnRecv ∉ setup setupStartMicFails) ∧
    setup setupStartMicFails =
      [SetupEvent.speaking true, SetupEvent.paInitialize, SetupEvent.openMic,
        SetupEvent.openSpeaker, SetupEvent.newEncoder, SetupEvent.newDecoder,
        SetupEvent.spawnRecv, SetupEvent.startMic, SetupEvent.closeSpeaker,
        SetupEvent.closeMic, SetupEvent.paTerminate, SetupEvent.speaking false] := by
  decide

end DiscordBot

namespace DiscordBot

/-- The send loop returns exactly in the iteration that sees the stop signal. -/
theorem sendIter_ctl (e : SendEnv) : (sendIter e).2 = Ctl.ret ↔ e.stop = true := by
  rcases e with ⟨stop, readOk, mic, enc, ready⟩
  cases stop <;> cases readOk <;> cases enc <;> cases ready <;> simp [sendIter]

/-- A step of the send loop leaves the receive goroutine alone, and ends the
function only when it sees the stop signal. -/
theorem relayStep_send (F : Nat) (sp : Bool) (r : Relay) (e : SendEnv) :
    ∃ r2 evs, relayStep F sp r (Step.send e) = some (r2, evs) ∧
      r2.recvRunning = r.recvRunning ∧ r2.pending = r.pending ∧
      (∀ ev ∈ evs, ev.isRecv = false) ∧
      (e.stop = false → r2.sendRunning = r.sendRunning) := by
  cases hs : r.sendRunning with
  | false =>
    refine ⟨r, [], by simp [relayStep, hs], rfl, rfl, ?_, fun _ => hs⟩
    intro ev hev
    simp at hev
  | true =>
    rcases hi : sendIter e with ⟨evs, c⟩
    cases c with
    | next =>
      refine ⟨r, evs.map RelayEvent.send, by simp [relayStep, hs, hi], rfl, rfl, ?_,
        fun _ => hs⟩
      intro ev hev
      obtain ⟨x, _, rfl⟩ := List.mem_map.mp hev
      rfl
    | ret =>
      refine ⟨⟨r.recvRunning, r.pending, false⟩,
        evs.map RelayEvent.send ++ (deferred true true).map RelayEvent.main,
        by simp [relayStep, hs, hi], rfl, rfl, ?_, ?_⟩
      · intro ev hev
        rcases List.mem_append.mp hev with h | h
        · obtain ⟨x, _, rfl⟩ := List.mem_map.mp h
          rfl
        · obtain ⟨x, _, rfl⟩ := List.mem_map.mp h
          rfl
      · intro hstop
        have hret : (sendIter e).2 = Ctl.ret := by rw [hi]
        rw [sendIter_ctl] at hret
        rw [hstop] at hret
        cases hret

/-- Once the receive goroutine has returned, no run of the relay shows an
event of it, and the function stays in its send loop for as long as that loop
does not see the stop signal. -/
theorem relayRun_recv_done (F : Nat) (sp : Bool) :
    ∀ (sched : List Step) (r : Relay), r.recvRunning = false →
      ∃ r2 evs, relayRun F sp r sched = some (r2, evs) ∧ r2.recvRunning = false ∧
        (∀ ev ∈ evs, ev.isRecv = false) ∧
        ((∀ e, Step.send e ∈ sched → e.stop = false) → r2.sendRunning = r.sendRunning) := by
  intro sched
  induction sched with
  | nil =>
    intro r hr
    refine ⟨r, [], rfl, hr, ?_, fun _ => rfl⟩
    intro ev hev
    simp at hev
  | cons st sts ih =>
    intro r hr
    cases st with
    | recv e =>
      obtain ⟨r2, evs, h1, h2, h3, h4⟩ := ih r hr
      refine ⟨r2, [] ++ evs, by simp [relayRun, relayStep, hr, h1], h2, by simpa using h3, ?_⟩
      intro hall
      exact h4 fun x hx => hall x (List.mem_cons_of_mem _ hx)
    | send e =>
      obtain ⟨r1, evs1, hstep, hrecv1, _, hev1, hsend1⟩ := relayStep_send F sp r e
      obtain ⟨r2, evs2, h1, h2, h3, h4⟩ := ih r1 (by rw [hrecv1, hr])
      refine ⟨r2, evs1 ++ evs2, by simp [relayRun, hstep, h1], h2, ?_, ?_⟩
      · intro ev hev
        rcases List.mem_append.mp hev with h | h
        · exact hev1 ev h
        · exact h3 ev h
      · intro hall
        rw [h4 fun x hx => hall x (List.mem_cons_of_mem _ hx),
          hsend1 (hall e (List.mem_cons_self _ _))]

/-- C10, as the code has it: when the receive goroutine finds the inbound
channel closed it returns, and from then on it reads no readiness flag and
receives nothing, in every run. The send loop is not told: the function
stays in it while the stop signal is not seen, an iteration with a ready
session still reads the flag and sends its packet, and the function returns
when an iteration of the send loop sees the stop signal. -/
theorem relay_after_inbound_close (F : Nat) (sp : Bool) (r : Relay) :
    (∀ e : RecvEnv, r.recvRunning = true → e.stop = false → e.vc = some ⟨true, false⟩ →
      e.recv = none →
      relayStep F sp r (Step.recv e) =
        some (⟨false, r.pending, r.sendRunning⟩,
          [RelayEvent.recv (RecvEvent.readReady true),
            RelayEvent.recv (RecvEvent.chanRecv none)])) ∧
    (∀ sched : List Step, r.recvRunning = false →
      ∃ r2 evs, relayRun F sp r sched = some (r2, evs) ∧ r2.recvRunning = false ∧
        (∀ ev ∈ evs, ev.isRecv = false) ∧
        ((∀ e, Step.send e ∈ sched → e.stop = false) → r2.sendRunning = r.sendRunning)) ∧
    (∀ (e : SendEnv) (p : Packet), r.sendRunning = true → e.stop = false → e.readOk = true →
      e.enc = some p → e.ready = true →
      relayStep F sp r (Step.send e) =
        some (r, [RelayEvent.send (SendEvent.micRead true),
          RelayEvent.send (SendEvent.encode e.mic (some p)),
          RelayEvent.send (SendEvent.readReady true),
          RelayEvent.send (SendEvent.opusSend p)])) ∧
    (∀ e : SendEnv, r.sendRunning = true → e.stop = true →
      relayStep F sp r (Step.send e) =
        some (⟨r.recvRunning, r.pending, false⟩,
          [RelayEvent.send SendEvent.stopSeen, RelayEvent.send SendEvent.micStop,
            RelayEvent.send SendEvent.speakerStop, RelayEvent.main SetupEvent.closeSpeaker,
            RelayEvent.main SetupEvent.closeMic, RelayEvent.main SetupEvent.paTerminate,
            RelayEvent.main (SetupEvent.speaking false)])) := by
  refine ⟨?_, ?_, ?_, ?_⟩
  · intro e hr hstop hvc hrecv
    simp [relayStep, hr, recvIter, hstop, hvc, hrecv]
  · intro sched hr
    exact relayRun_recv_done F sp sched r hr
  · intro e p hs hstop hread henc hready
    simp [relayStep, hs, sendIter, hstop, hread, henc, hready]
  · intro e hs hstop
    simp [relayStep, hs, sendIter, hstop, deferred]

/-- C10 fails as stated: after a setup in which every step succeeds, the
receive goroutine finds the inbound channel closed and returns; the next
iteration of the send loop, with the stop signal not asserted, reads the
readiness flag and sends a packet, and the function has not returned. -/
theorem relay_stops_on_close_counterexample :
    streamCombinedAudio none setupOk [Step.recv recvClosedEnv, Step.send sendReadyEnv] =
      some (⟨false, [], true⟩,
        [RelayEvent.main (SetupEvent.speaking true), RelayEvent.main SetupEvent.paInitialize,
          RelayEvent.main SetupEvent.openMic, RelayEvent.main SetupEvent.openSpeaker,
          RelayEvent.main SetupEvent.newEncoder, RelayEvent.main SetupEvent.newDecoder,
          RelayEvent.main SetupEvent.spawnRecv, RelayEvent.main SetupEvent.startMic,
          RelayEvent.main SetupEvent.startSpeaker, RelayEvent.main SetupEvent.enterSendLoop,
          RelayEvent.recv (RecvEvent.readReady true), RelayEvent.recv (RecvEvent.chanRecv none),
          RelayEvent.send (SendEvent.micRead true),
          RelayEvent.send (SendEvent.encode (List.replicate 960 0) (some [7])),
          RelayEvent.send (SendEvent.readReady true),
          RelayEvent.send (SendEvent.opusSend [7])]) ∧
    RelayEvent.readsReady (RelayEvent.send (SendEvent.readReady true)) = true ∧
    RelayEvent.sendsPacket (RelayEvent.send (SendEvent.opusSend [7])) = true :=
  ⟨rfl, rfl, rfl⟩

end DiscordBot

namespace DiscordBot

/-- C8 on a run of three iterations: a connection that is not ready, then a
ready one whose channel is nil, then the stop signal. The first two sleep
200 ms each without a receive, and the third ends the loop. -/
theorem recv_gate_order_witness :
    recvLoop 1920 true []
        [⟨false, some ⟨false, false⟩, some [1], DecodeResult.ok [1], fun _ => true⟩,
          ⟨false, some ⟨true, true⟩, some [1], DecodeResult.ok [1], fun _ => true⟩,
          ⟨true, some ⟨true, false⟩, some [1], DecodeResult.ok [1], fun _ => true⟩] =
      some ⟨[RecvEvent.readReady false, RecvEvent.sleep 200, RecvEvent.readReady true,
        RecvEvent.sleep 200, RecvEvent.stopSeen], [], Ctl.ret⟩ ∧
    recvIter 1920 true []
        ⟨true, some ⟨true, false⟩, some [1], DecodeResult.ok [1], fun _ => true⟩ =
      some ⟨[RecvEvent.stopSeen], [], Ctl.ret⟩ :=
  ⟨by decide,
    ((recv_gate_order 1920 true []
      ⟨true, some ⟨true, false⟩, some [1], DecodeResult.ok [1], fun _ => true⟩ []).1 rfl).1⟩

end DiscordBot

namespace DiscordBot

/-! ## The number of iterations of the drain loop -/

theorem outputFramesFromEnv_pos (env : Option (List Char)) : 0 < outputFramesFromEnv env := by
  unfold outputFramesFromEnv
  simp only
  split
  · decide
  · split
    · decide
    · split
      · decide
      · omega

theorem outputFrames_toNat_pos (env : Option (List Char)) :
    0 < (outputFramesFromEnv env).toNat := by
  have := outputFramesFromEnv_pos env
  omega

/-- A result of the drain loop is not changed by one more unit of fuel. -/
theorem drainLoop_fuel_succ (F : Nat) (sp : Bool) (w : Nat → Bool) :
    ∀ (fuel k : Nat) (buf : List Sample) (r : List RecvEvent × List Sample),
      drainLoop F sp w fuel k buf = some r → drainLoop F sp w (fuel + 1) k buf = some r := by
  intro fuel
  induction fuel with
  | zero => intro k buf r h; simp [drainLoop] at h
  | succ fuel ih =>
    intro k buf r h
    rw [drainLoop_succ] at h
    rw [drainLoop_succ]
    by_cases hle : F ≤ buf.length
    · rw [if_pos hle] at h
      rw [if_pos hle]
      cases hi : drainLoop F sp w fuel (k + 1) (buf.drop F) with
      | none => rw [hi] at h; cases h
      | some r1 =>
        rw [hi] at h
        rw [ih (k + 1) (buf.drop F) r1 hi]
        exact h
    · rw [if_neg hle] at h
      rw [if_neg hle]
      exact h

/-- A result of the drain loop is not changed by more fuel. -/
theorem drainLoop_fuel_le (F : Nat) (sp : Bool) (w : Nat → Bool) (k : Nat) (buf : List Sample)
    (r : List RecvEvent × List Sample) (fuel fuel2 : Nat) (hle : fuel ≤ fuel2)
    (h : drainLoop F sp w fuel k buf = some r) : drainLoop F sp w fuel2 k buf = some r := by
  induction hle with
  | refl => exact h
  | step _ ih => exact drainLoop_fuel_succ F sp w _ k buf r ih

/-- With `F > 0` the drain loop ends as soon as the fuel exceeds `len / F`: it
runs `len / F` times, each time playing one block, and leaves `len % F` samples. -/
theorem drainLoop_count (F : Nat) (hF : 0 < F) (sp : Bool) (w : Nat → Bool) :
    ∀ (fuel k : Nat) (buf : List Sample), buf.length / F < fuel →
      ∃ evs rest, drainLoop F sp w fuel k buf = some (evs, rest) ∧
        evs.length = buf.length / F ∧ rest.length = buf.length % F ∧
        (∀ ev ∈ evs, ∃ b r, ev = RecvEvent.play b r) ∧
        (copied evs).length = buf.length / F ∧
        (sp = true → (written evs).length = buf.length / F) := by
  intro fuel
  induction fuel with
  | zero => intro k buf h; exact absurd h (Nat.not_lt_zero _)
  | succ fuel ih =>
    intro k buf h
    by_cases hle : F ≤ buf.length
    · have hdiv : buf.length / F = (buf.length - F) / F + 1 := Nat.div_eq_sub_div hF hle
      have hmod : buf.length % F = (buf.length - F) % F := Nat.mod_eq_sub_mod hle
      have hlen : (buf.drop F).length = buf.length - F := List.length_drop _ _
      obtain ⟨evs, rest, h1, h2, h3, h4, h5, h6⟩ := ih (k + 1) (buf.drop F) (by rw [hlen]; omega)
      refine ⟨RecvEvent.play (buf.take F) (if sp then some (w k) else none) :: evs, rest,
        ?_, ?_, ?_, ?_, ?_, ?_⟩
      · rw [drainLoop_succ, if_pos hle, h1]
      · rw [List.length_cons, h2, hlen, hdiv]
      · rw [h3, hlen, hmod]
      · intro ev hev
        simp only [List.mem_cons] at hev
        rcases hev with hev | hev
        · exact ⟨_, _, hev⟩
        · exact h4 ev hev
      · simp only [copied, List.length_cons, h5, hlen, hdiv]
      · intro hsp
        subst hsp
        simp only [written, if_true, List.length_cons, h6 rfl, hlen, hdiv]
    · have hlt : buf.length < F := by omega
      refine ⟨[], buf, ?_, ?_, ?_, ?_, ?_, ?_⟩
      · rw [drainLoop_succ, if_neg hle]
      · rw [Nat.div_eq_of_lt hlt]; rfl
      · rw [Nat.mod_eq_of_lt hlt]
      · intro ev hev; simp at hev
      · rw [Nat.div_eq_of_lt hlt]; rfl
      · intro _; rw [Nat.div_eq_of_lt hlt]; rfl

/-- With `F > 0` and no more fuel than `len / F` the drain loop has not ended. -/
theorem drainLoop_short_fuel (F : Nat) (hF : 0 < F) (sp : Bool) (w : Nat → Bool) :
    ∀ (fuel k : Nat) (buf : List Sample), fuel ≤ buf.length / F →
      drainLoop F sp w fuel k buf = none := by
  intro fuel
  induction fuel with
  | zero => intro k buf _; rfl
  | succ fuel ih =>
    intro k buf h
    have hle : F ≤ buf.length := by
      by_contra hcon
      rw [Nat.div_eq_of_lt (by omega)] at h
      omega
    have hdiv : buf.length / F = (buf.length - F) / F + 1 := Nat.div_eq_sub_div hF hle
    have hlen : (buf.drop F).length = buf.length - F := List.length_drop _ _
    rw [drainLoop_succ, if_pos hle, ih (k + 1) (buf.drop F) (by rw [hlen]; omega)]

end DiscordBot

namespace DiscordBot

/-- C13: the drain loop ends with an exact count. For the block size `F`
that `outputFramesFromEnv` returns, which is at least 1 for every state of
the environment, a buffer of `p < F` samples and a decoder result of
`n ≤ 960` samples, the drain loop ends after exactly `(p + n) / F`
iterations, each of them one block played (and written, when the playback
stream is not nil), and leaves `(p + n) % F` samples. The count is exact:
the loop has its result on every fuel above `(p + n) / F` and on no fuel up
to it; it is at most `960 / F + 1`. With `F = 0` the loop would not end on
any fuel. -/
theorem drain_exact_count (env : Option (List Char)) (sp : Bool) (w : Nat → Bool)
    (pending samples : List Sample)
    (hp : pending.length < (outputFramesFromEnv env).toNat) (hn : samples.length ≤ 960) :
    1 ≤ (outputFramesFromEnv env).toNat ∧
    (∃ evs rest,
      drain (outputFramesFromEnv env).toNat sp w (pending ++ samples) = some (evs, rest) ∧
      evs.length = (pending.length + samples.length) / (outputFramesFromEnv env).toNat ∧
      (∀ ev ∈ evs, ∃ b r, ev = RecvEvent.play b r) ∧
      (sp = true → (written evs).length =
        (pending.length + samples.length) / (outputFramesFromEnv env).toNat) ∧
      rest.length = (pending.length + samples.length) % (outputFramesFromEnv env).toNat ∧
      evs.length ≤ 960 / (outputFramesFromEnv env).toNat + 1 ∧
      (∀ fuel, (pending.length + samples.length) / (outputFramesFromEnv env).toNat < fuel →
        drainLoop (outputFramesFromEnv env).toNat sp w fuel 0 (pending ++ samples) =
          some (evs, rest)) ∧
      (∀ fuel, fuel ≤ (pending.length + samples.length) / (outputFramesFromEnv env).toNat →
        drainLoop (outputFramesFromEnv env).toNat sp w fuel 0 (pending ++ samples) = none)) ∧
    (∀ (fuel k : Nat) (buf : List Sample), drainLoop 0 sp w fuel k buf = none) := by
  have hF : 0 < (outputFramesFromEnv env).toNat := outputFrames_toNat_pos env
  generalize (outputFramesFromEnv env).toNat = F at hp hF ⊢
  have hlen : (pending ++ samples).length = pending.length + samples.length :=
    List.length_append _ _
  have hdivle : (pending ++ samples).length / F < (pending ++ samples).length + 1 :=
    Nat.lt_succ_of_le (Nat.div_le_self _ _)
  obtain ⟨evs, rest, h1, h2, h3, h4, _, h6⟩ :=
    drainLoop_count F hF sp w ((pending ++ samples).length + 1) 0 (pending ++ samples) hdivle
  refine ⟨hF, ⟨evs, rest, h1, ?_, h4, ?_, ?_, ?_, ?_, ?_⟩, drainLoop_zero_none sp w⟩
  · rw [h2, hlen]
  · intro hsp
    rw [h6 hsp, hlen]
  · rw [h3, hlen]
  · rw [h2, hlen]
    calc (pending.length + samples.length) / F
        ≤ (F + 960) / F := Nat.div_le_div_right (by omega)
      _ = 960 / F + 1 := Nat.add_div_left 960 hF
  · intro fuel hfuel
    obtain ⟨evs2, rest2, g1, _⟩ :=
      drainLoop_count F hF sp w fuel 0 (pending ++ samples) (by rw [hlen]; exact hfuel)
    have e1 := drainLoop_fuel_le F sp w 0 (pending ++ samples) (evs2, rest2) fuel
      (max fuel ((pending ++ samples).length + 1)) (Nat.le_max_left _ _) g1
    have e2 := drainLoop_fuel_le F sp w 0 (pending ++ samples) (evs, rest)
      ((pending ++ samples).length + 1) (max fuel ((pending ++ samples).length + 1))
      (Nat.le_max_right _ _) h1
    rw [e1] at e2
    rw [g1, e2]
  · intro fuel hfuel
    exact drainLoop_short_fuel F hF sp w fuel 0 (pending ++ samples) (by rw [hlen]; exact hfuel)

/-- C13 at `OUTPUT_FRAMES=2`, a buffer of one sample and three decoded
samples: two iterations, two blocks written, no sample left. -/
theorem drain_exact_count_witness :
    outputFramesFromEnv (some "2".toList) = 2 ∧
    drain 2 true (fun _ => true) ([1] ++ [2, 3, 4]) =
      some ([RecvEvent.play [1, 2] (some true), RecvEvent.play [3, 4] (some true)], []) ∧
    drainLoop 2 true (fun _ => true) 2 0 ([1] ++ [2, 3, 4]) = none ∧
    1 ≤ (outputFramesFromEnv (some "2".toList)).toNat :=
  ⟨by decide, by decide, by decide,
    (drain_exact_count (some "2".toList) true (fun _ => true) [1] [2, 3, 4]
      (by decide) (by decide)).1⟩

/-! ## The loops of `streamAudio` and `receiveAudio` -/

theorem receiveAudioLoop_cons_next (sp : Bool) (e : DirectRecvEnv) (es : List DirectRecvEnv)
    (evs : List DirectRecvEvent) (h : receiveAudioIter sp e = (evs, Ctl.next)) :
    receiveAudioLoop sp (e :: es) =
      (evs ++ (receiveAudioLoop sp es).1, (receiveAudioLoop sp es).2) := by
  simp only [receiveAudioLoop, h]

/-- C11, as the code has it: in the receive loops of `streamCombinedAudio` and
of `receiveAudio`, an iteration that finds a non-nil session not ready, with
the stop signal not asserted, does not end the loop: it sleeps (200 ms in the
first, 500 ms in the second) and the loop goes on with the next iteration;
with a non-nil session an iteration of these loops returns only on the stop
signal or on a closed inbound channel. In `streamAudio` such an iteration
takes the guard of main.go lines 197-200 and returns from the receive
goroutine. -/
theorem readiness_stall_retried (F : Nat) (sp : Bool) (pending : List Sample) (vc : VoiceConn) :
    (∀ (e : RecvEnv) (es : List RecvEnv), e.stop = false → e.vc = some vc → vc.ready = false →
      recvIter F sp pending e =
        some ⟨[RecvEvent.readReady false, RecvEvent.sleep 200], pending, Ctl.next⟩ ∧
      recvLoop F sp pending (e :: es) =
        (recvLoop F sp pending es).map fun o =>
          ⟨[RecvEvent.readReady false, RecvEvent.sleep 200] ++ o.events, o.pending, o.ctl⟩) ∧
    (∀ (e : DirectRecvEnv) (es : List DirectRecvEnv), e.stop = false → e.vc = some vc →
      vc.ready = false →
      receiveAudioIter sp e =
        ([DirectRecvEvent.readReady false, DirectRecvEvent.sleep 500], Ctl.next) ∧
      receiveAudioLoop sp (e :: es) =
        ([DirectRecvEvent.readReady false, DirectRecvEvent.sleep 500] ++
          (receiveAudioLoop sp es).1, (receiveAudioLoop sp es).2)) ∧
    (∀ (e : RecvEnv) (o : RecvOut), e.vc = some vc → recvIter F sp pending e = some o →
      o.ctl = Ctl.ret →
      e.stop = true ∨ (e.recv = none ∧ RecvEvent.chanRecv none ∈ o.events)) ∧
    (∀ e : DirectRecvEnv, e.vc = some vc → (receiveAudioIter sp e).2 = Ctl.ret →
      e.stop = true ∨
        (e.recv = none ∧ DirectRecvEvent.chanRecv none ∈ (receiveAudioIter sp e).1)) ∧
    (∀ e : DirectRecvEnv, e.stop = false → e.vc = some vc → vc.ready = false →
      streamAudioRecvIter sp e = ([DirectRecvEvent.readReady false], Flow.ret)) := by
  refine ⟨?_, ?_, ?_, ?_, ?_⟩
  · intro e es hstop hvc hready
    have h : recvIter F sp pending e =
        some ⟨[RecvEvent.readReady false, RecvEvent.sleep 200], pending, Ctl.next⟩ := by
      simp [recvIter, hstop, hvc, hready]
    exact ⟨h, recvLoop_cons_next F sp pending pending e es _ h⟩
  · intro e es hstop hvc hready
    have h : receiveAudioIter sp e =
        ([DirectRecvEvent.readReady false, DirectRecvEvent.sleep 500], Ctl.next) := by
      simp [receiveAudioIter, hstop, hvc, hready]
    exact ⟨h, receiveAudioLoop_cons_next sp e es _ h⟩
  · intro e o hvc ho hret
    cases hstop : e.stop with
    | true => exact Or.inl rfl
    | false =>
      right
      rcases vc with ⟨ready, isNil⟩
      cases ready <;> cases isNil
      · simp [recvIter, hstop, hvc] at ho
        subst ho
        cases hret
      · simp [recvIter, hstop, hvc] at ho
        subst ho
        cases hret
      · cases hrecv : e.recv with
        | none =>
          simp [recvIter, hstop, hvc, hrecv] at ho
          subst ho
          exact ⟨rfl, by simp⟩
        | some p =>
          cases hdec : e.decode with
          | err =>
            simp [recvIter, hstop, hvc, hrecv, hdec] at ho
            subst ho
            cases hret
          | ok samples =>
            cases hd : drain F sp e.writeOk (pending ++ samples) with
            | none => simp [recvIter, hstop, hvc, hrecv, hdec, hd] at ho
            | some r =>
              simp [recvIter, hstop, hvc, hrecv, hdec, hd] at ho
              subst ho
              cases hret
      · simp [recvIter, hstop, hvc] at ho
        subst ho
        cases hret
  · intro e hvc hret
    rcases e with ⟨stop, evc, recv, decodeOk, out, writeOk⟩
    simp only at hvc
    subst hvc
    rcases vc with ⟨ready, isNil⟩
    cases stop <;> cases ready <;> cases isNil <;> cases recv <;> cases decodeOk <;>
      simp_all [receiveAudioIter]
  · intro e hstop hvc hready
    simp [streamAudioRecvIter, hstop, hvc, hready]

/-- C11 on the two loops that retry, at a stalled iteration followed by a
ready one: the loop of `receiveAudio` sleeps 500 ms and then receives,
decodes and plays the packet; the loop of `streamCombinedAudio` sleeps 200 ms
and goes on. -/
theorem readiness_stall_retried_witness :
    receiveAudioLoop true [stalledEnv, readyEnv] =
      ([DirectRecvEvent.readReady false, DirectRecvEvent.sleep 500,
        DirectRecvEvent.readReady true, DirectRecvEvent.chanRecv (some [1]),
        DirectRecvEvent.decode [1] true,
        DirectRecvEvent.write (List.replicate 960 0) true], Ctl.next) ∧
    receiveAudioIter true stalledEnv =
      ([DirectRecvEvent.readReady false, DirectRecvEvent.sleep 500], Ctl.next) ∧
    recvIter 1920 true []
        ⟨false, some ⟨false, false⟩, some [1], DecodeResult.ok [1], fun _ => true⟩ =
      some ⟨[RecvEvent.readReady false, RecvEvent.sleep 200], [], Ctl.next⟩ :=
  ⟨rfl,
    ((readiness_stall_retried 1920 true [] ⟨false, false⟩).2.1 stalledEnv [readyEnv]
      rfl rfl rfl).1,
    ((readiness_stall_retried 1920 true [] ⟨false, false⟩).1
      ⟨false, some ⟨false, false⟩, some [1], DecodeResult.ok [1], fun _ => true⟩ []
      rfl rfl rfl).1⟩

/-- C11 fails as stated on `streamAudio` (main.go, lines 197-200): an
iteration with the stop signal not asserted and a non-nil session that is not
ready does not wait and retry; it returns from the receive goroutine, and
whatever iterations would follow do not run. -/
theorem readiness_stall_fatal_counterexample :
    ¬ (stalledEnv.stop = false →
      (∃ vc, stalledEnv.vc = some vc ∧ vc.ready = false) →
      (streamAudioRecvIter true stalledEnv).2 = Flow.next) ∧
    streamAudioRecvIter true stalledEnv = ([DirectRecvEvent.readReady false], Flow.ret) ∧
    (∀ es : List DirectRecvEnv,
      streamAudioRecvLoop true (stalledEnv :: es) =
        ([DirectRecvEvent.readReady false], Flow.ret)) :=
  ⟨fun h => absurd (h rfl ⟨⟨false, false⟩, rfl, rfl⟩) (by decide), rfl, fun _ => rfl⟩

/-- C12 on the code: in the send loop of `streamAudio` an iteration whose
capture read fails still calls the encoder on the capture buffer and, with a
ready session, sends the packet; on the same observation the send loop of
`streamCombinedAudio` skips the frame. -/
theorem streamAudio_read_error_sends :
    readErrorEnv.stop = false ∧ readErrorEnv.readOk = false ∧
    streamAudioSendIter readErrorEnv =
      ([SendEvent.micRead false, SendEvent.encode (List.replicate 960 0) (some [7]),
        SendEvent.readReady true, SendEvent.opusSend [7]], Ctl.next) ∧
    sent (streamAudioSendLoop [readErrorEnv]).1 = [[7]] ∧
    sendIter readErrorEnv = ([SendEvent.micRead false], Ctl.next) :=
  ⟨rfl, rfl, rfl, rfl, rfl⟩

end DiscordBot
